import Mathlib

/-!
Verification of the immediate-aggregation backtester
(`immediateAggregationBacktester.py`).

The Python source is shallowly embedded below.  Timestamps are modelled as
`Nat` (milliseconds), prices and volumes as `ℚ` (the source uses Python
floats; the spec treats them as real numbers).  Python dictionaries keyed
by timeframe strings are modelled as association lists `List (String × _)`,
and Python's in-place mutation of shared `Trade` objects (the same object
lives in `open_trades` and `all_trades`) is modelled by keeping the ledger
`all_trades : List Trade` and letting `open_trades : List Nat` hold indices
into it, so an update through an index is visible in the ledger exactly as
the aliased mutation is in the source.
-/

/-- Candle dataclass: `{time, open, high, low, close, volume}`. -/
structure Candle where
  time : Nat
  «open» : ℚ
  high : ℚ
  low : ℚ
  close : ℚ
  volume : ℚ
  deriving Repr, DecidableEq, Inhabited

/-- Pivot dataclass.  `type` is `"high"` or `"low"`, `signal` is `"long"`
or `"short"`. -/
structure Pivot where
  type : String
  price : ℚ
  time : Nat
  index : Nat
  signal : String
  swing_pct : ℚ := 0
  timeframe : String := ""
  deriving Repr, DecidableEq, Inhabited

/-- Trade dataclass with its defaulted fields.  The wall-clock based `id`
string of the source is carried opaquely. -/
structure Trade where
  id : String
  type : String
  timeframe : String
  entry_price : ℚ
  entry_time : Nat
  trade_size : ℚ
  take_profit_price : ℚ
  stop_loss_price : ℚ
  leverage : ℚ
  status : String := "open"
  exit_price : Option ℚ := none
  exit_time : Option Nat := none
  exit_reason : String := ""
  pnl : ℚ := 0
  pnl_pct : ℚ := 0
  pivot : Option Pivot := none
  original_entry_price : Option ℚ := none
  entry_slippage : ℚ := 0
  exit_slippage : Option ℚ := none
  original_exit_price : Option ℚ := none
  best_price : ℚ := 0
  trailing_take_profit_active : Bool := false
  trailing_take_profit_price : Option ℚ := none
  original_take_profit_price : Option ℚ := none
  trailing_stop_loss_active : Bool := false
  trailing_stop_loss_price : Option ℚ := none
  original_stop_loss_price : Option ℚ := none
  deriving Repr, DecidableEq, Inhabited

/-- Confirmation dataclass. -/
structure Confirmation where
  timeframe : String
  role : String
  weight : ℚ
  pivot : Pivot
  inverted : Bool := false
  deriving Repr, DecidableEq, Inhabited

/-- One entry of `multi_pivot_config['timeframes']`, with the dictionary
defaults (`role` defaults to `"secondary"`, `weight` to `1`, `opposite`
to `False`) resolved at construction. -/
structure TfConfig where
  interval : String
  role : String := "secondary"
  weight : ℚ := 1
  opposite : Bool := false
  lookback : Nat := 0
  minSwingPct : ℚ := 0
  minLegBars : Nat := 0
  deriving Repr, DecidableEq, Inhabited

/-- The `cascade_settings` dictionary (snake_case spelling) read by
`check_cascade_confirmation` and `meets_execution_requirements`, with
dictionary defaults resolved at construction. -/
structure CascadeSettings where
  min_timeframes_required : Nat := 2
  require_primary_timeframe : Bool := false
  confirmation_window : List (String × Nat) := []
  deriving Repr, DecidableEq, Inhabited

/-- `multi_pivot_config`.  The run loop reads a camelCase spelled key
`cascadeSettings.confirmationWindow` that is distinct from the snake_case
`cascade_settings.confirmation_window` used by `check_cascade_confirmation`;
both spellings are therefore separate fields here. -/
structure MultiPivotConfig where
  timeframes : List TfConfig
  cascade_settings : CascadeSettings := {}
  cascadeSettings_confirmationWindow : List (String × Nat) := []
  deriving Repr, DecidableEq, Inhabited

/-- `trade_config` with its dictionary defaults resolved at construction. -/
structure TradeConfig where
  initial_capital : ℚ := 0
  take_profit : ℚ := 0
  stop_loss : ℚ := 0
  leverage : ℚ := 1
  total_maker_fee : ℚ := 1/10
  simulate_slippage : Bool := false
  slippage_percentage : ℚ := 1/50
  simulate_funding : Bool := false
  funding_rate : ℚ := 1/100
  funding_interval_hours : Nat := 8
  entry_delay_minutes : Nat := 0
  single_trade_mode : Bool := false
  max_concurrent_trades : Nat := 1
  direction : String := "both"
  position_sizing_mode : String := "percent"
  amount_per_trade : ℚ := 100
  risk_per_trade : ℚ := 100
  minimum_trade_amount : ℚ := 100
  deriving Repr, DecidableEq, Inhabited

/-- A pending cascade window, as pushed onto `pending_windows`. -/
structure PendingWindow where
  primary_pivot : Pivot
  created_time : Nat
  deriving Repr, DecidableEq, Inhabited

/-- Association-list lookup, modelling Python `dict.get`. -/
def lookupKey {α : Type} (l : List (String × α)) (k : String) : Option α :=
  (l.find? (fun p => p.1 == k)).map (fun p => p.2)

/-- Stable insertion used to model Python's stable `sorted(..., key=time)`:
an element is inserted before the first strictly later element, after
elements with an equal key. -/
def insertByTime (c : Candle) : List Candle → List Candle
  | [] => [c]
  | b :: rest => if c.time ≤ b.time then c :: b :: rest else b :: insertByTime c rest

/-- Stable sort of candles by ascending `time`. -/
def sortByTime : List Candle → List Candle
  | [] => []
  | c :: rest => insertByTime c (sortByTime rest)

/-- Insertion step for sorting `Nat` keys (`sorted(candle_groups.keys())`). -/
def insertNat (n : Nat) : List Nat → List Nat
  | [] => [n]
  | b :: rest => if n ≤ b then n :: b :: rest else b :: insertNat n rest

/-- Ascending sort of `Nat` keys. -/
def sortNat : List Nat → List Nat
  | [] => []
  | n :: rest => insertNat n (sortNat rest)

/-- Digit-string to number, modelling Python `int()` on a plain digit
string (no sign): `None` on the empty string or any non-digit character. -/
def digitsToNat? (l : List Char) : Option Nat :=
  if l.isEmpty then none
  else if l.all Char.isDigit then
    some (l.foldl (fun a c => a * 10 + (c.toNat - 48)) 0)
  else none

/-- Python `int(s)` restricted to optionally `'-'`-signed digit strings
(the only shapes the program ever feeds it); `None` models the
`ValueError` raised on anything else. -/
def pyInt (s : String) : Option Int :=
  match s.data with
  | [] => none
  | c :: rest =>
    if c = '-' then (digitsToNat? rest).map (fun n => -(n : Int))
    else (digitsToNat? (c :: rest)).map (fun n => (n : Int))

/-- Last character of a string; `s.endswith(x)` for a one-character `x` is
`lastChar s = some x`. -/
def lastChar (s : String) : Option Char :=
  s.data.getLast?

/-- All but the last character, modelling the slice `timeframe[:-1]`. -/
def dropLastStr (s : String) : String :=
  ⟨s.data.dropLast⟩

/-- The second (and effective: it shadows the earlier lowercasing variant)
definition of `parse_timeframe_to_minutes`.  Suffix `m`/`h`/`d`/`w`
multiplies the numeric prefix by 1, 60, 24·60, 7·24·60; any other string —
including a bare digit string — raises `ValueError`, modelled by `none`. -/
def parse_timeframe_to_minutes (timeframe : String) : Option Int :=
  if lastChar timeframe = some 'm' then pyInt (dropLastStr timeframe)
  else if lastChar timeframe = some 'h' then
    (pyInt (dropLastStr timeframe)).map (fun n => n * 60)
  else if lastChar timeframe = some 'd' then
    (pyInt (dropLastStr timeframe)).map (fun n => n * 24 * 60)
  else if lastChar timeframe = some 'w' then
    (pyInt (dropLastStr timeframe)).map (fun n => n * 7 * 24 * 60)
  else none

/-- Bucket key: `(candle.time // interval_ms) * interval_ms`. -/
def windowStart (interval_ms : Nat) (t : Nat) : Nat :=
  t / interval_ms * interval_ms

/-- Maximum of the `high` fields of a non-empty candle list
(`max(c.high for c in sorted_candles)`); `0` on the empty list, which the
source never reaches. -/
def maxHigh : List Candle → ℚ
  | [] => 0
  | [c] => c.high
  | c :: c2 :: rest => max c.high (maxHigh (c2 :: rest))

/-- Minimum of the `low` fields of a non-empty candle list. -/
def minLow : List Candle → ℚ
  | [] => 0
  | [c] => c.low
  | c :: c2 :: rest => min c.low (minLow (c2 :: rest))

/-- Sum of the `volume` fields. -/
def sumVolume : List Candle → ℚ
  | [] => 0
  | c :: rest => c.volume + sumVolume rest

/-- Merge one bucket into its aggregated candle: candles in the window are
sorted by time; open of the earliest, max high, min low, close of the
latest, summed volume, and the timestamp is the window END
(`window_start + interval_ms`). -/
def mergeBucket (window_start interval_ms : Nat) (group : List Candle) : Candle :=
  let sorted_candles := sortByTime group
  { time := window_start + interval_ms
    «open» := (sorted_candles.headD default).«open»
    high := maxHigh sorted_candles
    low := minLow sorted_candles
    close := (sorted_candles.getLastD default).close
    volume := sumVolume sorted_candles }

/-- The bucket of candles whose window key is `k`, in input order (the
order in which the source's `defaultdict` group accumulates them). -/
def bucketOf (one_minute_candles : List Candle) (interval_ms k : Nat) : List Candle :=
  one_minute_candles.filter (fun c => windowStart interval_ms c.time == k)

/-- The distinct bucket keys in ascending order
(`sorted(candle_groups.keys())`). -/
def aggKeys (one_minute_candles : List Candle) (interval_ms : Nat) : List Nat :=
  sortNat ((one_minute_candles.map (fun c => windowStart interval_ms c.time)).dedup)

/-- Core of `aggregate_candles` once the interval has been parsed and
validated: group by window key, merge each group, return sorted by time. -/
def aggregate_candles_core (one_minute_candles : List Candle) (interval_ms : Nat) : List Candle :=
  sortByTime ((aggKeys one_minute_candles interval_ms).map
    (fun k => mergeBucket k interval_ms (bucketOf one_minute_candles interval_ms k)))

/-- `aggregate_candles(one_minute_candles, target_interval)`: parses the
interval (the shadowing parser), raises (`none`) on an unparseable string
or a non-positive minute count, otherwise aggregates. -/
def aggregate_candles (one_minute_candles : List Candle) (target_interval : String) : Option (List Candle) :=
  match parse_timeframe_to_minutes target_interval with
  | none => none
  | some interval_minutes =>
    if interval_minutes ≤ 0 then none
    else some (aggregate_candles_core one_minute_candles (interval_minutes.toNat * 60 * 1000))

/-- Configuration record handed to `detect_pivot`. -/
structure PivotConfig where
  pivotLookback : Nat
  minSwingPct : ℚ
  minLegBars : Nat
  pivot_detection_mode : String := "close"
  deriving Repr, DecidableEq, Inhabited

/-- The comparable "high" value of a candle under the detection mode. -/
def modeHigh (mode : String) (c : Candle) : ℚ :=
  if mode = "close" then c.close else c.high

/-- The comparable "low" value of a candle under the detection mode. -/
def modeLow (mode : String) (c : Candle) : ℚ :=
  if mode = "close" then c.close else c.low

/-- The `(is_high_pivot, is_low_pivot)` flags of `detect_pivot`: for a
positive lookback, a strict comparison against each of the `L` preceding
candles (the `index - j < 0` break of the source loops can never fire
because the guard `index < pivot_lookback` has already returned `None`);
for lookback 0, a single-predecessor comparison with the
dominant-excursion tie-break preferring `"high"` on exact ties. -/
def pivotFlags (config : PivotConfig) (candles : List Candle) (index : Nat) : Bool × Bool :=
  let mode := config.pivot_detection_mode
  let current_high := modeHigh mode (candles.getD index default)
  let current_low := modeLow mode (candles.getD index default)
  if config.pivotLookback = 0 then
    let prev := candles.getD (index - 1) default
    let prev_high := modeHigh mode prev
    let prev_low := modeLow mode prev
    let is_high : Bool := decide (current_high > prev_high)
    let is_low : Bool := decide (current_low < prev_low)
    if is_high ∧ is_low then
      if |current_high - prev_high| ≥ |prev_low - current_low| then (is_high, false)
      else (false, is_low)
    else (is_high, is_low)
  else
    ((List.range config.pivotLookback).all
      (fun j => decide (modeHigh mode (candles.getD (index - (j + 1)) default) < current_high)),
     (List.range config.pivotLookback).all
      (fun j => decide (modeLow mode (candles.getD (index - (j + 1)) default) > current_low)))

/-- The pivot type chosen by `detect_pivot`: `"high"` wins when its flag
is set. -/
def pivotTypeOf (config : PivotConfig) (candles : List Candle) (index : Nat) : String :=
  if (pivotFlags config candles index).1 then "high" else "low"

/-- The pivot price chosen by `detect_pivot`. -/
def pivotPriceOf (config : PivotConfig) (candles : List Candle) (index : Nat) : ℚ :=
  if (pivotFlags config candles index).1 then
    modeHigh config.pivot_detection_mode (candles.getD index default)
  else modeLow config.pivot_detection_mode (candles.getD index default)

/-- The maximum swing percent of `detect_pivot` (computed only when a
minimum swing is configured, `0` otherwise).  Division by a zero compare
price (a `ZeroDivisionError` in the source) is modelled by `ℚ`'s total
division. -/
def maxSwingPctOf (config : PivotConfig) (candles : List Candle) (index : Nat) : ℚ :=
  if config.minSwingPct > 0 then
    let upper := if config.pivotLookback = 0 then 1 else config.pivotLookback
    (List.range upper).foldl
      (fun acc j =>
        let compare_candle := candles.getD (index - (j + 1)) default
        let compare_price :=
          if config.pivot_detection_mode = "close" then compare_candle.close
          else if pivotTypeOf config candles index = "high" then compare_candle.low
          else compare_candle.high
        max acc (|(pivotPriceOf config candles index - compare_price) / compare_price * 100|))
      0
  else 0

/-- `detect_pivot(candles, index, config)`. -/
def detect_pivot (candles : List Candle) (index : Nat) (config : PivotConfig) : Option Pivot :=
  if config.pivotLookback = 0 ∧ index = 0 then none
  else if index < config.pivotLookback ∨ candles.length ≤ index then none
  else if ¬ (pivotFlags config candles index).1 ∧ ¬ (pivotFlags config candles index).2 then
    none
  else if config.minSwingPct > 0 ∧ maxSwingPctOf config candles index < config.minSwingPct then
    none
  else
    some { type := pivotTypeOf config candles index
           price := pivotPriceOf config candles index
           time := (candles.getD index default).time
           index := index
           signal := if pivotTypeOf config candles index = "high" then "short" else "long"
           swing_pct := maxSwingPctOf config candles index }

/-- `create_trade(trade_type, pivot, trade_size, entry_time, timeframe,
config)`.  The dataclass `__post_init__` (best price defaults to the entry
price; original TP/SL default to the computed TP/SL) is applied inline.
The wall-clock `id` is abstracted as the empty string. -/
def create_trade (trade_type : String) (pivot : Pivot) (trade_size : ℚ)
    (entry_time : Nat) (timeframe : String) (config : TradeConfig) : Trade :=
  let entry_price := pivot.price
  let tp_distance := entry_price * (config.take_profit / 100)
  let sl_distance := entry_price * (config.stop_loss / 100)
  let take_profit_price :=
    if trade_type = "long" then entry_price + tp_distance else entry_price - tp_distance
  let stop_loss_price :=
    if trade_type = "long" then entry_price - sl_distance else entry_price + sl_distance
  { id := ""
    type := trade_type
    timeframe := timeframe
    entry_price := entry_price
    entry_time := entry_time
    trade_size := trade_size
    take_profit_price := take_profit_price
    stop_loss_price := stop_loss_price
    leverage := config.leverage
    pivot := some pivot
    best_price := entry_price
    original_take_profit_price := some take_profit_price
    original_stop_loss_price := some stop_loss_price }

/-- First block of `update_trade`: track the most favorable close seen. -/
def updateBestPrice (trade : Trade) (current_price : ℚ) : Trade :=
  if trade.type = "long" then
    if current_price > trade.best_price then { trade with best_price := current_price } else trade
  else
    if current_price < trade.best_price then { trade with best_price := current_price } else trade

/-- Second block of `update_trade`: the exit decision
(`should_close, exit_reason`), comparing the tick close against the
trade's TP and SL levels. -/
def tradeCloseReason (trade : Trade) (current_price : ℚ) : Bool × String :=
  if trade.type = "long" then
    if current_price ≥ trade.take_profit_price then (true, "TP")
    else if current_price ≤ trade.stop_loss_price then (true, "SL")
    else (false, "")
  else
    if current_price ≤ trade.take_profit_price then (true, "TP")
    else if current_price ≥ trade.stop_loss_price then (true, "SL")
    else (false, "")

/-- The realized P&L written by the closing block of `update_trade`:
directional price change over entry, times size and leverage, minus (if
enabled) slippage, minus (if enabled) funding accrued per started 8-hour
period, minus round-trip fees. -/
def closedPnl (trade : Trade) (current_price : ℚ) (exit_time : Nat) (config : TradeConfig) : ℚ :=
  let price_change :=
    if trade.type = "long" then current_price - trade.entry_price
    else trade.entry_price - current_price
  let pnl0 := price_change / trade.entry_price * trade.trade_size * trade.leverage
  let total_fees := trade.trade_size * (config.total_maker_fee / 100) * 2
  let pnl1 :=
    if config.simulate_slippage then
      pnl0 - trade.trade_size * (config.slippage_percentage / 100)
    else pnl0
  let pnl2 :=
    if config.simulate_funding then
      let funding_periods := (exit_time - trade.entry_time) / (8 * 60 * 60 * 1000)
      if funding_periods > 0 then
        pnl1 - trade.trade_size * (config.funding_rate / 100) * funding_periods
      else pnl1
    else pnl1
  pnl2 - total_fees

/-- Closing block of `update_trade`: fix status, exit price/time/reason,
P&L and P&L percent. -/
def closeTrade (trade : Trade) (current_price : ℚ) (exit_time : Nat) (exit_reason : String)
    (config : TradeConfig) : Trade :=
  let price_change :=
    if trade.type = "long" then current_price - trade.entry_price
    else trade.entry_price - current_price
  { trade with
      status := "closed"
      exit_price := some current_price
      exit_time := some exit_time
      exit_reason := exit_reason
      pnl := closedPnl trade current_price exit_time config
      pnl_pct := price_change / trade.entry_price * 100 * trade.leverage }

/-- `update_trade(trade, current_candle, config)`: returns the updated
trade (the source mutates it in place) together with `should_close`. -/
def update_trade (trade : Trade) (current_candle : Candle) (config : TradeConfig) : Trade × Bool :=
  let current_price := current_candle.close
  let trade := updateBestPrice trade current_price
  let close_reason := tradeCloseReason trade current_price
  if close_reason.1 then
    (closeTrade trade current_price current_candle.time close_reason.2 config, true)
  else (trade, false)

/-- `calculate_trade_size(capital, config)`. -/
def calculate_trade_size (capital : ℚ) (config : TradeConfig) : ℚ :=
  if config.position_sizing_mode = "fixed" then config.amount_per_trade
  else if config.position_sizing_mode = "percent" then capital * (config.risk_per_trade / 100)
  else if config.position_sizing_mode = "minimum" then
    max (capital * (config.risk_per_trade / 100)) config.minimum_trade_amount
  else config.amount_per_trade

/-- `apply_direction_filter(pivot, config)` returning
`(should_trade, trade_type)`. -/
def apply_direction_filter (pivot : Pivot) (config : TradeConfig) : Bool × String :=
  if pivot.signal = "long" then
    if config.direction = "buy" ∨ config.direction = "both" then (true, "long")
    else if config.direction = "alternate" then (true, "short")
    else (false, "")
  else if pivot.signal = "short" then
    if config.direction = "sell" ∨ config.direction = "both" then (true, "short")
    else if config.direction = "alternate" then (true, "long")
    else (false, "")
  else (false, "")

/-- The effective confirmation window used INSIDE
`check_cascade_confirmation`: the snake_case `cascade_settings`
`confirmation_window` entry for the primary interval, clipped to the fixed
5-minute proximity bound; here a configured `0` yields `min 5min 0 = 0`
because the source tests `is not None`. -/
def cascade_effective_window_ms (config : MultiPivotConfig) (primary_interval : String) : Nat :=
  let proximity_window_ms := 5 * 60 * 1000
  match lookupKey config.cascade_settings.confirmation_window primary_interval with
  | some configured_minutes => min proximity_window_ms (configured_minutes * 60 * 1000)
  | none => proximity_window_ms

/-- The target signal a timeframe must show, exactly as the source's
chained conditional expression parses:
`'short' if primary.signal == 'long' else ('long' if opposite else primary.signal)`. -/
def target_signal_of (primary_pivot : Pivot) (tf_config : TfConfig) : String :=
  if primary_pivot.signal = "long" then "short"
  else if tf_config.opposite then "long"
  else primary_pivot.signal

/-- Absolute distance of two `Nat` timestamps. -/
def natDist (a b : Nat) : Nat :=
  max a b - min a b

/-- The confirmation contributed by one configured timeframe (the body of
the `for tf_config in config['timeframes']` loop): skip when the
timeframe's pivot list is empty, otherwise take the first pivot matching
the target signal within the effective window of the primary pivot and not
in the future of `as_of_time`. -/
def confirmation_for (primary_pivot : Pivot) (all_timeframe_pivots : List (String × List Pivot))
    (as_of_time : Nat) (effective_window_ms : Nat) (tf_config : TfConfig) : Option Confirmation :=
  let pivots := (lookupKey all_timeframe_pivots tf_config.interval).getD []
  if pivots.isEmpty then none
  else
    let target_signal := target_signal_of primary_pivot tf_config
    let recent_pivots := pivots.filter
      (fun p => decide (p.signal = target_signal
        ∧ natDist p.time primary_pivot.time ≤ effective_window_ms
        ∧ p.time ≤ as_of_time))
    match recent_pivots with
    | [] => none
    | p :: _ => some { timeframe := tf_config.interval
                       role := tf_config.role
                       weight := tf_config.weight
                       pivot := p
                       inverted := tf_config.opposite }

/-- `check_cascade_confirmation(primary_pivot, all_timeframe_pivots,
as_of_time, primary_interval, config)`. -/
def check_cascade_confirmation (primary_pivot : Pivot)
    (all_timeframe_pivots : List (String × List Pivot)) (as_of_time : Nat)
    (primary_interval : String) (config : MultiPivotConfig) : List Confirmation :=
  let effective_window_ms := cascade_effective_window_ms config primary_interval
  config.timeframes.filterMap
    (confirmation_for primary_pivot all_timeframe_pivots as_of_time effective_window_ms)

/-- `meets_execution_requirements(confirmations, config)`. -/
def meets_execution_requirements (confirmations : List Confirmation)
    (config : MultiPivotConfig) : Bool :=
  if confirmations.length < config.cascade_settings.min_timeframes_required then false
  else if config.cascade_settings.require_primary_timeframe
      ∧ ¬ confirmations.any (fun c => c.role == "primary") then false
  else true

/-- The mutable run state of `run_immediate_aggregation_backtest`.
`all_trades` is the ledger; `open_trades` holds indices into it so that the
source's aliased in-place mutation of trades shared by both lists is
preserved. -/
structure SimState where
  capital : ℚ
  all_trades : List Trade := []
  open_trades : List Nat := []
  pending_windows : List PendingWindow := []
  confirmed_signals : Nat := 0
  executed_trades : Nat := 0
  total_signals : Nat := 0
  applied_funding_rates : List Nat := []
  deriving Repr, DecidableEq, Inhabited

/-- The per-run constants: configurations, the primary timeframe, the
1-minute series and its per-timeframe pivot lists. -/
structure RunCtx where
  trade_config : TradeConfig
  multi_pivot_config : MultiPivotConfig
  primary_tf_name : String
  one_minute_candles : List Candle
  timeframe_pivots : List (String × List Pivot)
  deriving Repr, Inhabited

/-- `apply_funding_rates(current_time, open_trades, capital,
applied_funding_rates, trade_config)`: at most once per funding-interval
key, deduct `trade_size * funding_rate` for every open trade. -/
def apply_funding_rates (current_time : Nat) (open_trades : List Nat) (all_trades : List Trade)
    (capital : ℚ) (applied_funding_rates : List Nat) (trade_config : TradeConfig) :
    ℚ × List Nat :=
  let interval_ms := trade_config.funding_interval_hours * 60 * 60 * 1000
  if open_trades.isEmpty ∨ trade_config.funding_rate = 0 then (capital, applied_funding_rates)
  else
    let funding_time_key := current_time / interval_ms * interval_ms
    if applied_funding_rates.contains funding_time_key then (capital, applied_funding_rates)
    else
      let total_funding :=
        (open_trades.map (fun j => (all_trades.getD j default).trade_size * trade_config.funding_rate)).sum
      (capital - total_funding, funding_time_key :: applied_funding_rates)

/-- One open-trade index handled at one 1-minute candle, threading the
accumulator `(surviving open indices, ledger, capital)`: trades whose
entry time has not been reached are skipped; otherwise the ledger entry is
replaced by its `update_trade` image, and a closed trade leaves the open
list and credits its P&L to capital. -/
def updateOneTrade (trade_config : TradeConfig) (minute_candle : Candle) (j : Nat)
    (acc : List Nat × List Trade × ℚ) : List Nat × List Trade × ℚ :=
  if minute_candle.time ≥ (acc.2.1.getD j default).entry_time then
    if (update_trade (acc.2.1.getD j default) minute_candle trade_config).2 then
      (acc.1, acc.2.1.set j (update_trade (acc.2.1.getD j default) minute_candle trade_config).1,
        acc.2.2 + (update_trade (acc.2.1.getD j default) minute_candle trade_config).1.pnl)
    else
      (j :: acc.1,
        acc.2.1.set j (update_trade (acc.2.1.getD j default) minute_candle trade_config).1,
        acc.2.2)
  else (j :: acc.1, acc.2.1, acc.2.2)

/-- One pass of `for j in range(len(open_trades)-1, -1, -1)` over the open
trade indices at one 1-minute candle: the source iterates from the highest
index down, so the tail of the index list is processed first.  Returns the
surviving open indices, the updated ledger, and the updated capital. -/
def updateTradesPass (trade_config : TradeConfig) (minute_candle : Candle) :
    List Nat → List Trade → ℚ → List Nat × List Trade × ℚ
  | [], all_trades, capital => ([], all_trades, capital)
  | j :: rest, all_trades, capital =>
    updateOneTrade trade_config minute_candle j
      (updateTradesPass trade_config minute_candle rest all_trades capital)

/-- The effective confirmation window computed by the RUN LOOP (not by
`check_cascade_confirmation`): it reads the camelCase
`cascadeSettings.confirmationWindow` key, and a configured `0` is falsy in
`if configured_minutes`, so it falls back to the plain 5-minute proximity
bound instead of `min`. -/
def loop_effective_window_ms (ctx : RunCtx) : Nat :=
  let proximity_window_ms := 5 * 60 * 1000
  match lookupKey ctx.multi_pivot_config.cascadeSettings_confirmationWindow ctx.primary_tf_name with
  | some configured_minutes =>
    if configured_minutes = 0 then proximity_window_ms
    else min proximity_window_ms (configured_minutes * 60 * 1000)
  | none => proximity_window_ms

/-- A pending window's expiry deadline as the run loop computes it:
`win['primary_pivot'].time + effective_window_ms`. -/
def window_end (ctx : RunCtx) (win : PendingWindow) : Nat :=
  win.primary_pivot.time + loop_effective_window_ms ctx

/-- Entry-price resolution: the 1-minute close at the exact delayed entry
time (via the time map), else the nearest 1-minute close within 30
seconds (earliest wins ties, by strict improvement). -/
def resolve_entry_price (one_minute_candles : List Candle) (actual_entry_time : Nat) : Option ℚ :=
  match one_minute_candles.find? (fun c => c.time == actual_entry_time) with
  | some c => some c.close
  | none =>
    let thirty_sec := 30 * 1000
    let nearest := one_minute_candles.foldl
      (fun acc c =>
        if natDist c.time actual_entry_time ≤ thirty_sec then
          match acc with
          | none => some c
          | some b =>
            if natDist c.time actual_entry_time < natDist b.time actual_entry_time then some c
            else b
        else acc)
      (none : Option Candle)
    nearest.map (fun c => c.close)

/-- The last-confirmation time `max(c.pivot.time for c in confirmations)`
(over a non-empty list; `0` for the empty list the source would crash on). -/
def last_confirmation_time (confirmations : List Confirmation) : Nat :=
  confirmations.foldl (fun m c => max m c.pivot.time) 0

/-- The delayed entry time of a window that met the execution
requirements: `max(primary_pivot.time, last confirming pivot time)` plus
the configured entry delay. -/
def window_actual_entry_time (ctx : RunCtx) (win : PendingWindow)
    (confirmations : List Confirmation) : Nat :=
  max win.primary_pivot.time (last_confirmation_time confirmations)
    + ctx.trade_config.entry_delay_minutes * 60 * 1000

/-- `max_trades`: 1 in single-trade mode, otherwise the configured cap. -/
def max_trades_of (trade_config : TradeConfig) : Nat :=
  if trade_config.single_trade_mode then 1 else trade_config.max_concurrent_trades

/-- The trade a confirmed window opens: `create_trade` at the primary
pivot's price, then the entry price overridden with the resolved 1-minute
close (TP/SL are NOT recomputed from the override, as in the source). -/
def cascadeTrade (ctx : RunCtx) (win : PendingWindow) (trade_type : String)
    (entry_price_override : ℚ) (actual_entry_time : Nat) (capital : ℚ) : Trade :=
  let trade_size := calculate_trade_size capital ctx.trade_config
  { create_trade trade_type win.primary_pivot trade_size actual_entry_time
      ctx.primary_tf_name ctx.trade_config with
    entry_price := entry_price_override }

/-- The execution step of a confirmed window with a resolved entry price:
direction filter, then concurrency cap, then (only then) both counters,
the ledger and the open list grow together. -/
def executeWindow (ctx : RunCtx) (win : PendingWindow) (entry_price_override : ℚ)
    (actual_entry_time : Nat) (st : SimState) : SimState :=
  if (apply_direction_filter win.primary_pivot ctx.trade_config).1 then
    if st.open_trades.length < max_trades_of ctx.trade_config then
      { st with
          confirmed_signals := st.confirmed_signals + 1
          executed_trades := st.executed_trades + 1
          open_trades := st.open_trades ++ [st.all_trades.length]
          all_trades := st.all_trades ++
            [cascadeTrade ctx win (apply_direction_filter win.primary_pivot ctx.trade_config).2
              entry_price_override actual_entry_time st.capital] }
    else st
  else st

/-- The confirmations computed for a pending window at one tick. -/
def window_confirmations (ctx : RunCtx) (minute_candle : Candle)
    (win : PendingWindow) : List Confirmation :=
  check_cascade_confirmation win.primary_pivot ctx.timeframe_pivots
    minute_candle.time ctx.primary_tf_name ctx.multi_pivot_config

/-- The entry price resolved for a pending window at one tick, defaulted
to `0` exactly as the source's falsiness test
`if not entry_price_override` treats `None` and `0.0` alike. -/
def window_entry_price (ctx : RunCtx) (minute_candle : Candle) (win : PendingWindow) : ℚ :=
  (resolve_entry_price ctx.one_minute_candles
    (window_actual_entry_time ctx win (window_confirmations ctx minute_candle win))).getD 0

/-- The evaluation of one pending window at one 1-minute candle (the body
of the `for w in range(len(pending_windows)-1, -1, -1)` loop): expire it,
keep it pending, or execute it — the executed window is removed whether or
not a trade was actually opened.  `none` in the first component means the
window was removed. -/
def processOneWindow (ctx : RunCtx) (minute_candle : Candle) (win : PendingWindow)
    (st : SimState) : Option PendingWindow × SimState :=
  if window_end ctx win < minute_candle.time then (none, st)
  else if meets_execution_requirements (window_confirmations ctx minute_candle win)
      ctx.multi_pivot_config then
    if window_entry_price ctx minute_candle win = 0 then (some win, st)
    else
      (none, executeWindow ctx win (window_entry_price ctx minute_candle win)
        (window_actual_entry_time ctx win (window_confirmations ctx minute_candle win)) st)
  else (some win, st)

/-- One pass over the pending windows at one 1-minute candle, highest
index first (as the reversed source loop does); a window kept by
`processOneWindow` stays in place, a removed one (`none`) disappears. -/
def processWindowsPass (ctx : RunCtx) (minute_candle : Candle) :
    List PendingWindow → SimState → List PendingWindow × SimState
  | [], st => ([], st)
  | win :: rest, st =>
    let r := processWindowsPass ctx minute_candle rest st
    let q := processOneWindow ctx minute_candle win r.2
    (q.1.toList ++ r.1, q.2)

/-- Everything done at one 1-minute candle inside a primary candle's
sub-window: update/close open trades, then evaluate the pending cascade
windows.  (`BACKTEST_CONFIG['trading_mode']` is the constant `'cascade'`,
and running the window pass on an empty pending list is the identity, so
the `and pending_windows` guard needs no separate case.) -/
def minuteTick (ctx : RunCtx) (st : SimState) (minute_candle : Candle) : SimState :=
  let t := updateTradesPass ctx.trade_config minute_candle st.open_trades st.all_trades st.capital
  let st1 := { st with open_trades := t.1, all_trades := t.2.1, capital := t.2.2 }
  let w := processWindowsPass ctx minute_candle st1.pending_windows st1
  { w.2 with pending_windows := w.1 }

/-- The funding application at the top of a primary-candle iteration,
as a state transformer. -/
def fundingStep (ctx : RunCtx) (current_time : Nat) (st : SimState) : SimState :=
  { st with
      capital := (apply_funding_rates current_time st.open_trades st.all_trades st.capital
        st.applied_funding_rates ctx.trade_config).1
      applied_funding_rates := (apply_funding_rates current_time st.open_trades st.all_trades
        st.capital st.applied_funding_rates ctx.trade_config).2 }

/-- The 1-minute candles belonging to one primary candle's sub-window
`(current_time - primary_tf_minutes*60000, current_time]`. -/
def minuteCandlesInRange (ctx : RunCtx) (primary_tf_minutes : Nat)
    (current_time : Nat) : List Candle :=
  ctx.one_minute_candles.filter
    (fun c => decide (current_time - primary_tf_minutes * 60 * 1000 < c.time
      ∧ c.time ≤ current_time))

/-- The new-pivot check at the end of a primary-candle iteration: when a
primary pivot sits exactly at this candle's time, count the signal and
push a pending window. -/
def primaryPivotStep (primary_pivots : List Pivot) (current_time : Nat)
    (st : SimState) : SimState :=
  match primary_pivots.find? (fun p => p.time == current_time) with
  | some current_pivot =>
    { st with
        total_signals := st.total_signals + 1
        pending_windows := st.pending_windows ++ [{ primary_pivot := current_pivot
                                                    created_time := current_time }] }
  | none => st

/-- One iteration of `for i, current_candle in enumerate(primary_candles)`:
funding, then every 1-minute candle of the sub-window, then the new-pivot
check.  `primary_tf_minutes` is the parse of the primary interval (a run
whose primary interval failed to parse has already crashed during
aggregation). -/
def processPrimaryCandle (ctx : RunCtx) (primary_pivots : List Pivot)
    (primary_tf_minutes : Nat) (st : SimState) (current_candle : Candle) : SimState :=
  primaryPivotStep primary_pivots current_candle.time
    ((minuteCandlesInRange ctx primary_tf_minutes current_candle.time).foldl
      (minuteTick ctx) (fundingStep ctx current_candle.time st))

/-- The whole trading pass over the primary candle sequence. -/
def runPass (ctx : RunCtx) (primary_pivots : List Pivot) (primary_tf_minutes : Nat)
    (primary_candles : List Candle) (st : SimState) : SimState :=
  primary_candles.foldl (processPrimaryCandle ctx primary_pivots primary_tf_minutes) st

/-- The `# Close any remaining open trades` block at the end of the run:
each still-open trade is passed through `update_trade` once against the
LAST PRIMARY candle and its `pnl` is added to capital — nothing forces the
trade shut when no TP/SL level is crossed by that final close price. -/
def finalizeOpenTrades (trade_config : TradeConfig) (primary_candles : List Candle)
    (st : SimState) : SimState :=
  if st.open_trades.isEmpty then st
  else
    match primary_candles.getLast? with
    | none => st
    | some last_candle =>
      st.open_trades.foldl
        (fun s j =>
          let trade := s.all_trades.getD j default
          let u := update_trade trade last_candle trade_config
          { s with all_trades := s.all_trades.set j u.1, capital := s.capital + u.1.pnl })
        st

/-- A trade's trailing state is untouched: both trailing levels inactive
and unset, exactly as the dataclass defaults. -/
def trailingInert (t : Trade) : Prop :=
  t.trailing_take_profit_active = false ∧
  t.trailing_take_profit_price = none ∧
  t.trailing_stop_loss_active = false ∧
  t.trailing_stop_loss_price = none

/-- Fixture: fee-, slippage- and funding-free trade configuration with
10% TP and 10% SL. -/
def zeroCostConfig : TradeConfig :=
  { take_profit := 10, stop_loss := 10, leverage := 1, total_maker_fee := 0,
    simulate_slippage := false, simulate_funding := false }

/-- Fixture: a low pivot at price 100, signalling long. -/
def longPivot100 : Pivot :=
  { type := "low", price := 100, time := 0, index := 0, signal := "long" }

/-- Fixture: a 1-minute candle one minute in, closing at 110. -/
def candle110 : Candle := ⟨60000, 110, 110, 110, 110, 0⟩

/-- Fixture: a flat candle closing at 100 (triggers neither a 10% TP nor a
10% SL of a trade entered at 100). -/
def candle100 : Candle := ⟨60000, 100, 100, 100, 100, 0⟩

/-- Fixture: a secondary timeframe `"1m"` WITHOUT the `opposite` flag. -/
def c1TfConfig : TfConfig := { interval := "1m" }

/-- Fixture: a multi-pivot configuration whose only timeframe is the
non-opposite `"1m"`. -/
def c1Mpc : MultiPivotConfig := { timeframes := [c1TfConfig] }

/-- Fixture: a `"1m"` pivot signalling long at time 0. -/
def c1LongSecondary : Pivot :=
  { type := "low", price := 0, time := 0, index := 0, signal := "long", timeframe := "1m" }

/-- Fixture: a `"1m"` pivot signalling short at time 0. -/
def c1ShortSecondary : Pivot :=
  { type := "high", price := 0, time := 0, index := 0, signal := "short", timeframe := "1m" }

/-- Fixture: a long trade of size 1000 entered at 100 with 10% TP and SL
(so TP 110, SL 90). -/
def c2OpenTrade : Trade := create_trade "long" longPivot100 1000 0 "1m" zeroCostConfig

/-- Fixture: a run state holding `c2OpenTrade` open. -/
def c2State : SimState := { capital := 1000, all_trades := [c2OpenTrade], open_trades := [0] }

/-- Fixture: a run context whose cascade needs one confirming timeframe,
whose direction policy is `"sell"` (so long signals are rejected), with a
single 1-minute candle at time 0 closing at 100 and a single short `"1m"`
pivot. -/
def ctx9 : RunCtx where
  trade_config :=
    { take_profit := 10, stop_loss := 10, leverage := 1, total_maker_fee := 0,
      direction := "sell" }
  multi_pivot_config :=
    { timeframes := [c1TfConfig], cascade_settings := { min_timeframes_required := 1 } }
  primary_tf_name := "1m"
  one_minute_candles := [⟨0, 100, 100, 100, 100, 0⟩]
  timeframe_pivots := [("1m", [c1ShortSecondary])]

/-- Fixture: a pending window for the long primary pivot at time 0. -/
def win9 : PendingWindow := { primary_pivot := longPivot100, created_time := 0 }

/-- Fixture: the base tick at time 0. -/
def tick9 : Candle := ⟨0, 100, 100, 100, 100, 0⟩

/-- Fixture: an empty run state with some capital. -/
def st9 : SimState := { capital := 1000 }

/-- Fixture: a run context whose loop-side confirmation window for the
primary interval `"1m"` is 3 minutes, so the effective window is
`min 5min 3min = 180000 ms`. -/
def ctx5 : RunCtx where
  trade_config := {}
  multi_pivot_config :=
    { timeframes := [c1TfConfig], cascadeSettings_confirmationWindow := [("1m", 3)] }
  primary_tf_name := "1m"
  one_minute_candles := []
  timeframe_pivots := []

/-- Fixture: a state holding the pending window of `longPivot100`. -/
def st5 : SimState := { capital := 0, pending_windows := [win9] }

/-- Fixture: a base tick at 200000 ms, past the 180000 ms deadline. -/
def tick5 : Candle := ⟨200000, 0, 0, 0, 0, 0⟩

/-- Fixture: lookback-0, high/low-mode pivot configuration with no
minimum swing. -/
def c8Config : PivotConfig :=
  { pivotLookback := 0, minSwingPct := 0, minLegBars := 0, pivot_detection_mode := "hl" }

/-- Fixture: an engulfing second candle (high 10→13, low 5→1): both
directions qualify at lookback 0 and the down-excursion 4 beats the
up-excursion 3. -/
def c8Candles : List Candle := [⟨0, 0, 10, 5, 0, 0⟩, ⟨60000, 0, 13, 1, 0, 0⟩]

/-! Helper lemmas about the trade-update blocks. -/

/-- Unfolding `update_trade` into its three blocks. -/
theorem update_trade_eq (trade : Trade) (cand : Candle) (cfg : TradeConfig) :
    update_trade trade cand cfg =
      (if (tradeCloseReason (updateBestPrice trade cand.close) cand.close).1 then
        (closeTrade (updateBestPrice trade cand.close) cand.close cand.time
          (tradeCloseReason (updateBestPrice trade cand.close) cand.close).2 cfg, true)
      else (updateBestPrice trade cand.close, false)) := rfl

/-- `updateBestPrice` changes only `best_price`. -/
theorem updateBestPrice_pres (t : Trade) (p : ℚ) :
    (updateBestPrice t p).type = t.type ∧
    (updateBestPrice t p).entry_price = t.entry_price ∧
    (updateBestPrice t p).entry_time = t.entry_time ∧
    (updateBestPrice t p).trade_size = t.trade_size ∧
    (updateBestPrice t p).leverage = t.leverage ∧
    (updateBestPrice t p).take_profit_price = t.take_profit_price ∧
    (updateBestPrice t p).stop_loss_price = t.stop_loss_price ∧
    (updateBestPrice t p).pivot = t.pivot ∧
    (updateBestPrice t p).status = t.status ∧
    (updateBestPrice t p).trailing_take_profit_active = t.trailing_take_profit_active ∧
    (updateBestPrice t p).trailing_take_profit_price = t.trailing_take_profit_price ∧
    (updateBestPrice t p).trailing_stop_loss_active = t.trailing_stop_loss_active ∧
    (updateBestPrice t p).trailing_stop_loss_price = t.trailing_stop_loss_price := by
  unfold updateBestPrice
  split_ifs <;> exact ⟨rfl, rfl, rfl, rfl, rfl, rfl, rfl, rfl, rfl, rfl, rfl, rfl, rfl⟩

/-- `closeTrade` writes the closing fields and keeps all others. -/
theorem closeTrade_pres (t : Trade) (p : ℚ) (et : Nat) (r : String) (cfg : TradeConfig) :
    (closeTrade t p et r cfg).type = t.type ∧
    (closeTrade t p et r cfg).take_profit_price = t.take_profit_price ∧
    (closeTrade t p et r cfg).stop_loss_price = t.stop_loss_price ∧
    (closeTrade t p et r cfg).pivot = t.pivot ∧
    (closeTrade t p et r cfg).trailing_take_profit_active = t.trailing_take_profit_active ∧
    (closeTrade t p et r cfg).trailing_take_profit_price = t.trailing_take_profit_price ∧
    (closeTrade t p et r cfg).trailing_stop_loss_active = t.trailing_stop_loss_active ∧
    (closeTrade t p et r cfg).trailing_stop_loss_price = t.trailing_stop_loss_price ∧
    (closeTrade t p et r cfg).status = "closed" ∧
    (closeTrade t p et r cfg).exit_price = some p ∧
    (closeTrade t p et r cfg).exit_time = some et ∧
    (closeTrade t p et r cfg).pnl = closedPnl t p et cfg :=
  ⟨rfl, rfl, rfl, rfl, rfl, rfl, rfl, rfl, rfl, rfl, rfl, rfl⟩

/-- `closedPnl` only reads fields `updateBestPrice` never writes. -/
theorem closedPnl_updateBestPrice (t : Trade) (p q : ℚ) (et : Nat) (cfg : TradeConfig) :
    closedPnl (updateBestPrice t p) q et cfg = closedPnl t q et cfg := by
  unfold updateBestPrice
  split_ifs <;> rfl

/-- `tradeCloseReason` only reads fields `updateBestPrice` never writes. -/
theorem tradeCloseReason_updateBestPrice (t : Trade) (p q : ℚ) :
    tradeCloseReason (updateBestPrice t p) q = tradeCloseReason t q := by
  unfold updateBestPrice
  split_ifs <;> rfl

/-- The exit decision of `update_trade`, in terms of the trade's TP and SL
levels. -/
theorem update_trade_snd_iff (trade : Trade) (cand : Candle) (cfg : TradeConfig) :
    (update_trade trade cand cfg).2 = true ↔
      (if trade.type = "long" then
        cand.close ≥ trade.take_profit_price ∨ cand.close ≤ trade.stop_loss_price
      else
        cand.close ≤ trade.take_profit_price ∨ cand.close ≥ trade.stop_loss_price) := by
  rw [update_trade_eq, tradeCloseReason_updateBestPrice]
  unfold tradeCloseReason
  split_ifs <;> simp_all

/-- A closed `update_trade` records exit price, exit time, status and the
P&L of `closedPnl`. -/
theorem update_trade_closed (trade : Trade) (cand : Candle) (cfg : TradeConfig)
    (h : (update_trade trade cand cfg).2 = true) :
    (update_trade trade cand cfg).1.pnl = closedPnl trade cand.close cand.time cfg ∧
    (update_trade trade cand cfg).1.exit_price = some cand.close ∧
    (update_trade trade cand cfg).1.exit_time = some cand.time ∧
    (update_trade trade cand cfg).1.status = "closed" := by
  rw [update_trade_eq] at h ⊢
  by_cases hc : (tradeCloseReason (updateBestPrice trade cand.close) cand.close).1 = true
  · rw [if_pos hc]
    refine ⟨?_, rfl, rfl, rfl⟩
    show closedPnl (updateBestPrice trade cand.close) cand.close cand.time cfg = _
    rw [closedPnl_updateBestPrice]
  · rw [if_neg hc] at h
    exact absurd h (by simp)

/-- `update_trade` never touches type, entry data, TP/SL levels, the pivot
or the trailing state. -/
theorem update_trade_pres (trade : Trade) (cand : Candle) (cfg : TradeConfig) :
    (update_trade trade cand cfg).1.type = trade.type ∧
    (update_trade trade cand cfg).1.take_profit_price = trade.take_profit_price ∧
    (update_trade trade cand cfg).1.stop_loss_price = trade.stop_loss_price ∧
    (update_trade trade cand cfg).1.pivot = trade.pivot ∧
    (update_trade trade cand cfg).1.trailing_take_profit_active = trade.trailing_take_profit_active ∧
    (update_trade trade cand cfg).1.trailing_take_profit_price = trade.trailing_take_profit_price ∧
    (update_trade trade cand cfg).1.trailing_stop_loss_active = trade.trailing_stop_loss_active ∧
    (update_trade trade cand cfg).1.trailing_stop_loss_price = trade.trailing_stop_loss_price := by
  rw [update_trade_eq]
  have hb := updateBestPrice_pres trade cand.close
  have hc := closeTrade_pres (updateBestPrice trade cand.close) cand.close cand.time
    (tradeCloseReason (updateBestPrice trade cand.close) cand.close).2 cfg
  split_ifs
  · exact ⟨hc.1.trans hb.1, hc.2.1.trans hb.2.2.2.2.2.1, hc.2.2.1.trans hb.2.2.2.2.2.2.1,
      hc.2.2.2.1.trans hb.2.2.2.2.2.2.2.1, hc.2.2.2.2.1.trans hb.2.2.2.2.2.2.2.2.2.1,
      hc.2.2.2.2.2.1.trans hb.2.2.2.2.2.2.2.2.2.2.1,
      hc.2.2.2.2.2.2.1.trans hb.2.2.2.2.2.2.2.2.2.2.2.1,
      hc.2.2.2.2.2.2.2.1.trans hb.2.2.2.2.2.2.2.2.2.2.2.2⟩
  · exact ⟨hb.1, hb.2.2.2.2.2.1, hb.2.2.2.2.2.2.1, hb.2.2.2.2.2.2.2.1,
      hb.2.2.2.2.2.2.2.2.2.1, hb.2.2.2.2.2.2.2.2.2.2.1,
      hb.2.2.2.2.2.2.2.2.2.2.2.1, hb.2.2.2.2.2.2.2.2.2.2.2.2⟩

/-! Helper lemmas about timeframe parsing. -/

/-- A successful `digitsToNat?` means a non-empty all-digit string. -/
theorem digitsToNat?_shape (l : List Char) (n : Nat) (h : digitsToNat? l = some n) :
    l ≠ [] ∧ ∀ c ∈ l, c.isDigit := by
  unfold digitsToNat? at h
  split_ifs at h with h1 h2
  · exact ⟨fun he => by simp [he] at h1, by simpa [List.all_eq_true] using h2⟩

/-- `pyInt` on an all-digit string returns the digit value. -/
theorem pyInt_digits (l : List Char) (n : Nat) (h : digitsToNat? l = some n) :
    pyInt ⟨l⟩ = some (n : Int) := by
  obtain ⟨hne, hdig⟩ := digitsToNat?_shape l n h
  match l, hne with
  | c :: rest, _ =>
    have hc : c.isDigit := hdig c (by simp)
    have hcm : ¬ (c = '-') := by
      intro he
      rw [he] at hc
      exact absurd hc (by decide)
    show pyInt ⟨c :: rest⟩ = some (n : Int)
    unfold pyInt
    simp only [hcm, if_false]
    rw [h]
    rfl

/-- The last character of a string built by appending one character. -/
theorem lastChar_concat (l : List Char) (a : Char) : lastChar ⟨l ++ [a]⟩ = some a := by
  show (l ++ [a]).getLast? = some a
  exact List.getLast?_concat l

/-- Dropping the last character of a string built by appending one. -/
theorem dropLastStr_concat (l : List Char) (a : Char) : dropLastStr ⟨l ++ [a]⟩ = ⟨l⟩ := by
  show String.mk ((l ++ [a]).dropLast) = ⟨l⟩
  rw [List.dropLast_concat]

/-! Helper lemmas about the pending-window pass. -/

theorem executeWindow_spec (ctx : RunCtx) (win : PendingWindow) (p : ℚ) (aet : Nat)
    (st : SimState) :
    executeWindow ctx win p aet st = st ∨
      (executeWindow ctx win p aet st =
        { st with
            confirmed_signals := st.confirmed_signals + 1
            executed_trades := st.executed_trades + 1
            open_trades := st.open_trades ++ [st.all_trades.length]
            all_trades := st.all_trades ++
              [cascadeTrade ctx win (apply_direction_filter win.primary_pivot ctx.trade_config).2
                p aet st.capital] }) := by
  unfold executeWindow
  split_ifs
  · exact Or.inr rfl
  · exact Or.inl rfl
  · exact Or.inl rfl

theorem cascadeTrade_inert (ctx : RunCtx) (win : PendingWindow) (ty : String) (p : ℚ)
    (aet : Nat) (cap : ℚ) :
    trailingInert (cascadeTrade ctx win ty p aet cap) ∧
    (cascadeTrade ctx win ty p aet cap).pivot = some win.primary_pivot :=
  ⟨⟨rfl, rfl, rfl, rfl⟩, rfl⟩

theorem processOneWindow_spec (ctx : RunCtx) (tick : Candle) (win : PendingWindow)
    (st : SimState) :
    ((processOneWindow ctx tick win st).1 = none ∨
      (processOneWindow ctx tick win st).1 = some win) ∧
    ((processOneWindow ctx tick win st).1 = some win → tick.time ≤ window_end ctx win) ∧
    ((processOneWindow ctx tick win st).2 = st ∨
      (tick.time ≤ window_end ctx win ∧ (processOneWindow ctx tick win st).1 = none ∧
        ∃ tr, trailingInert tr ∧ tr.pivot = some win.primary_pivot ∧
          (processOneWindow ctx tick win st).2 =
            { st with
                confirmed_signals := st.confirmed_signals + 1
                executed_trades := st.executed_trades + 1
                open_trades := st.open_trades ++ [st.all_trades.length]
                all_trades := st.all_trades ++ [tr] })) := by
  unfold processOneWindow
  split_ifs with h1 h2 h3
  · exact ⟨Or.inl rfl, by simp, Or.inl rfl⟩
  · exact ⟨Or.inr rfl, fun _ => Nat.le_of_not_lt h1, Or.inl rfl⟩
  · refine ⟨Or.inl rfl, by simp, ?_⟩
    rcases executeWindow_spec ctx win (window_entry_price ctx tick win)
        (window_actual_entry_time ctx win (window_confirmations ctx tick win)) st with he | he
    · exact Or.inl he
    · exact Or.inr ⟨Nat.le_of_not_lt h1, rfl,
        _, (cascadeTrade_inert _ _ _ _ _ _).1, (cascadeTrade_inert _ _ _ _ _ _).2, he⟩
  · exact ⟨Or.inr rfl, fun _ => Nat.le_of_not_lt h1, Or.inl rfl⟩

theorem processWindowsPass_cons (ctx : RunCtx) (tick : Candle) (win : PendingWindow)
    (rest : List PendingWindow) (st : SimState) :
    processWindowsPass ctx tick (win :: rest) st =
      ((processOneWindow ctx tick win (processWindowsPass ctx tick rest st).2).1.toList
          ++ (processWindowsPass ctx tick rest st).1,
        (processOneWindow ctx tick win (processWindowsPass ctx tick rest st).2).2) := rfl

/-- Membership in the surviving pending list after one pass. -/
theorem processWindowsPass_mem (ctx : RunCtx) (tick : Candle) :
    ∀ (pending : List PendingWindow) (st : SimState) (w : PendingWindow),
      w ∈ (processWindowsPass ctx tick pending st).1 →
      w ∈ pending ∧ tick.time ≤ window_end ctx w
  | [], st, w, h => absurd h (by simp [processWindowsPass])
  | win :: rest, st, w, h => by
    rw [processWindowsPass_cons] at h
    rcases List.mem_append.mp h with hm | hm
    · have hs := processOneWindow_spec ctx tick win (processWindowsPass ctx tick rest st).2
      rcases hs.1 with h0 | h0 <;> rw [h0] at hm
      · cases hm
      · rcases List.mem_singleton.mp (by simpa using hm) with rfl
        exact ⟨List.mem_cons_self _ _, hs.2.1 h0⟩
    · obtain ⟨hm2, ht⟩ := processWindowsPass_mem ctx tick rest st w hm
      exact ⟨List.mem_cons_of_mem _ hm2, ht⟩

/-- Counters move together through one pass. -/
theorem processWindowsPass_counters (ctx : RunCtx) (tick : Candle) :
    ∀ (pending : List PendingWindow) (st : SimState),
      ∃ k, (processWindowsPass ctx tick pending st).2.confirmed_signals
            = st.confirmed_signals + k ∧
        (processWindowsPass ctx tick pending st).2.executed_trades = st.executed_trades + k
  | [], st => ⟨0, rfl, rfl⟩
  | win :: rest, st => by
    obtain ⟨k, hc, he⟩ := processWindowsPass_counters ctx tick rest st
    have hs := (processOneWindow_spec ctx tick win (processWindowsPass ctx tick rest st).2).2.2
    rw [processWindowsPass_cons]
    rcases hs with h0 | ⟨_, _, tr, _, _, h0⟩
    · exact ⟨k, by rw [h0, hc], by rw [h0, he]⟩
    · exact ⟨k + 1, by rw [h0]; dsimp; rw [hc, Nat.add_assoc],
        by rw [h0]; dsimp; rw [he, Nat.add_assoc]⟩

/-- Every ledger entry after one pass is an old entry or an inert cascade
trade of a still-live window of the pass. -/
theorem processWindowsPass_trades (ctx : RunCtx) (tick : Candle) :
    ∀ (pending : List PendingWindow) (st : SimState) (tr : Trade),
      tr ∈ (processWindowsPass ctx tick pending st).2.all_trades →
      tr ∈ st.all_trades ∨
        (trailingInert tr ∧ ∃ w ∈ pending, tick.time ≤ window_end ctx w ∧
          tr.pivot = some w.primary_pivot)
  | [], st, tr, h => Or.inl (by simpa [processWindowsPass] using h)
  | win :: rest, st, tr, h => by
    rw [processWindowsPass_cons] at h
    dsimp at h
    have hrec := processWindowsPass_trades ctx tick rest st tr
    have hs := (processOneWindow_spec ctx tick win (processWindowsPass ctx tick rest st).2).2.2
    rcases hs with h0 | ⟨htw, _, tr', hin, hpv, h0⟩
    · rw [h0] at h
      rcases hrec h with hold | ⟨hi, w, hw, ht, hp⟩
      · exact Or.inl hold
      · exact Or.inr ⟨hi, w, List.mem_cons_of_mem _ hw, ht, hp⟩
    · rw [h0] at h
      dsimp at h
      rcases List.mem_append.mp h with hmem | hmem
      · rcases hrec hmem with hold | ⟨hi, w, hw, ht, hp⟩
        · exact Or.inl hold
        · exact Or.inr ⟨hi, w, List.mem_cons_of_mem _ hw, ht, hp⟩
      · rw [List.mem_singleton.mp hmem]
        exact Or.inr ⟨hin, win, List.mem_cons_self _ _, htw, hpv⟩


/-! Helper lemmas for run-level invariants. -/

/-- Fold invariant with membership of the folded list. -/
theorem foldl_inv_mem {α β : Type} (P : β → Prop) (f : β → α → β) :
    ∀ (l : List α) (s : β), P s → (∀ a ∈ l, ∀ b, P b → P (f b a)) → P (l.foldl f s)
  | [], _, hs, _ => hs
  | a :: l, s, hs, hstep =>
    foldl_inv_mem P f l (f s a) (hstep a (by simp) s hs)
      (fun x hx b hb => hstep x (by simp [hx]) b hb)

/-- `update_trade` keeps the trailing state inert. -/
theorem update_trade_inert (t : Trade) (c : Candle) (cfg : TradeConfig)
    (h : trailingInert t) : trailingInert (update_trade t c cfg).1 := by
  have hp := update_trade_pres t c cfg
  exact ⟨hp.2.2.2.2.1.trans h.1, hp.2.2.2.2.2.1.trans h.2.1,
    hp.2.2.2.2.2.2.1.trans h.2.2.1, hp.2.2.2.2.2.2.2.trans h.2.2.2⟩

/-- Replacing entry `j` of a ledger by its `update_trade` image preserves a
trade property that `update_trade` preserves. -/
theorem set_update_pres (P : Trade → Prop) (cfg : TradeConfig) (c : Candle)
    (l : List Trade) (j : Nat)
    (hP : ∀ t, P t → P (update_trade t c cfg).1) (hall : ∀ tr ∈ l, P tr) :
    ∀ tr ∈ l.set j (update_trade (l.getD j default) c cfg).1, P tr := by
  intro tr h
  by_cases hjlen : j < l.length
  · have hmem : l.getD j default ∈ l := by
      rw [List.getD_eq_getElem l default hjlen]
      exact List.getElem_mem hjlen
    rcases List.mem_or_eq_of_mem_set h with hm | he
    · exact hall tr hm
    · exact he ▸ hP _ (hall _ hmem)
  · rw [List.set_eq_of_length_le (Nat.le_of_not_lt hjlen)] at h
    exact hall tr h

/-- One `updateOneTrade` step preserves ledger-wide trade properties. -/
theorem updateOneTrade_pres (P : Trade → Prop) (cfg : TradeConfig) (tick : Candle) (j : Nat)
    (acc : List Nat × List Trade × ℚ)
    (hP : ∀ t, P t → P (update_trade t tick cfg).1)
    (hall : ∀ tr ∈ acc.2.1, P tr) :
    ∀ tr ∈ (updateOneTrade cfg tick j acc).2.1, P tr := by
  intro tr h
  unfold updateOneTrade at h
  split_ifs at h <;>
    first
      | exact hall tr h
      | exact set_update_pres P cfg tick acc.2.1 j hP hall tr h

/-- The whole per-tick open-trade pass preserves ledger-wide trade
properties. -/
theorem updateTradesPass_pres (P : Trade → Prop) (cfg : TradeConfig) (tick : Candle)
    (hP : ∀ t, P t → P (update_trade t tick cfg).1) :
    ∀ (idxs : List Nat) (all : List Trade) (cap : ℚ), (∀ tr ∈ all, P tr) →
      ∀ tr ∈ (updateTradesPass cfg tick idxs all cap).2.1, P tr
  | [], _, _, hall => hall
  | j :: rest, all, cap, hall =>
    updateOneTrade_pres P cfg tick j _ hP
      (updateTradesPass_pres P cfg tick hP rest all cap hall)

/-- Every ledger entry after a full 1-minute tick is an updated old entry
or a fresh inert cascade trade of a live pending window. -/
theorem minuteTick_trades_pres (P : Trade → Prop) (ctx : RunCtx) (st : SimState) (tick : Candle)
    (hP : ∀ t, P t → P (update_trade t tick ctx.trade_config).1)
    (hNew : ∀ w ∈ st.pending_windows, tick.time ≤ window_end ctx w →
      ∀ tr, trailingInert tr → tr.pivot = some w.primary_pivot → P tr)
    (hall : ∀ tr ∈ st.all_trades, P tr) :
    ∀ tr ∈ (minuteTick ctx st tick).all_trades, P tr := by
  intro tr h
  have h1 : ∀ x ∈ (updateTradesPass ctx.trade_config tick st.open_trades
      st.all_trades st.capital).2.1, P x :=
    updateTradesPass_pres P ctx.trade_config tick hP st.open_trades st.all_trades st.capital hall
  have h2 : tr ∈ (processWindowsPass ctx tick st.pending_windows
      { st with
          open_trades := (updateTradesPass ctx.trade_config tick st.open_trades
            st.all_trades st.capital).1
          all_trades := (updateTradesPass ctx.trade_config tick st.open_trades
            st.all_trades st.capital).2.1
          capital := (updateTradesPass ctx.trade_config tick st.open_trades
            st.all_trades st.capital).2.2 }).2.all_trades := h
  rcases processWindowsPass_trades ctx tick st.pending_windows _ tr h2 with hm | ⟨hi, w, hw, ht, hp⟩
  · exact h1 tr hm
  · exact hNew w hw ht tr hi hp

/-- The trailing state of every ledger entry stays inert through a full
1-minute tick. -/
theorem minuteTick_inert (ctx : RunCtx) (st : SimState) (tick : Candle)
    (hall : ∀ tr ∈ st.all_trades, trailingInert tr) :
    ∀ tr ∈ (minuteTick ctx st tick).all_trades, trailingInert tr :=
  minuteTick_trades_pres trailingInert ctx st tick
    (fun t ht => update_trade_inert t tick ctx.trade_config ht)
    (fun _ _ _ _ hi _ => hi) hall

/-- Counter equality is preserved by a full 1-minute tick. -/
theorem minuteTick_counters_eq (ctx : RunCtx) (st : SimState) (tick : Candle)
    (h : st.confirmed_signals = st.executed_trades) :
    (minuteTick ctx st tick).confirmed_signals = (minuteTick ctx st tick).executed_trades := by
  obtain ⟨k, hc, he⟩ := processWindowsPass_counters ctx tick st.pending_windows
    { st with
        open_trades := (updateTradesPass ctx.trade_config tick st.open_trades
          st.all_trades st.capital).1
        all_trades := (updateTradesPass ctx.trade_config tick st.open_trades
          st.all_trades st.capital).2.1
        capital := (updateTradesPass ctx.trade_config tick st.open_trades
          st.all_trades st.capital).2.2 }
  show (processWindowsPass ctx tick st.pending_windows _).2.confirmed_signals
    = (processWindowsPass ctx tick st.pending_windows _).2.executed_trades
  rw [hc, he]
  exact congrArg (· + k) h

/-- A window surviving a full 1-minute tick was already pending and its
deadline had not passed. -/
theorem minuteTick_pending_mem (ctx : RunCtx) (st : SimState) (tick : Candle)
    (w : PendingWindow) (h : w ∈ (minuteTick ctx st tick).pending_windows) :
    w ∈ st.pending_windows ∧ tick.time ≤ window_end ctx w :=
  processWindowsPass_mem ctx tick st.pending_windows _ w h

/-- The new-pivot step never touches the counters or the ledger. -/
theorem primaryPivotStep_pres (pp : List Pivot) (t : Nat) (st : SimState) :
    (primaryPivotStep pp t st).confirmed_signals = st.confirmed_signals ∧
    (primaryPivotStep pp t st).executed_trades = st.executed_trades ∧
    (primaryPivotStep pp t st).all_trades = st.all_trades := by
  unfold primaryPivotStep
  split <;> exact ⟨rfl, rfl, rfl⟩

/-- Funding only touches capital and the applied-funding set. -/
theorem fundingStep_pres (ctx : RunCtx) (t : Nat) (st : SimState) :
    (fundingStep ctx t st).confirmed_signals = st.confirmed_signals ∧
    (fundingStep ctx t st).executed_trades = st.executed_trades ∧
    (fundingStep ctx t st).all_trades = st.all_trades ∧
    (fundingStep ctx t st).pending_windows = st.pending_windows ∧
    (fundingStep ctx t st).open_trades = st.open_trades :=
  ⟨rfl, rfl, rfl, rfl, rfl⟩

/-- Counter equality is preserved by a whole primary-candle iteration. -/
theorem processPrimaryCandle_counters_eq (ctx : RunCtx) (pp : List Pivot) (m : Nat)
    (st : SimState) (cand : Candle) (h : st.confirmed_signals = st.executed_trades) :
    (processPrimaryCandle ctx pp m st cand).confirmed_signals
      = (processPrimaryCandle ctx pp m st cand).executed_trades := by
  unfold processPrimaryCandle
  have hps := primaryPivotStep_pres pp cand.time
    ((minuteCandlesInRange ctx m cand.time).foldl (minuteTick ctx)
      (fundingStep ctx cand.time st))
  rw [hps.1, hps.2.1]
  refine foldl_inv_mem (fun s => s.confirmed_signals = s.executed_trades) _
    (minuteCandlesInRange ctx m cand.time) (fundingStep ctx cand.time st) h ?_
  intro a _ b hb
  exact minuteTick_counters_eq ctx b a hb

/-- The trailing state of every ledger entry stays inert through a whole
primary-candle iteration. -/
theorem processPrimaryCandle_inert (ctx : RunCtx) (pp : List Pivot) (m : Nat)
    (st : SimState) (cand : Candle)
    (hall : ∀ tr ∈ st.all_trades, trailingInert tr) :
    ∀ tr ∈ (processPrimaryCandle ctx pp m st cand).all_trades, trailingInert tr := by
  intro tr h
  unfold processPrimaryCandle at h
  rw [(primaryPivotStep_pres pp cand.time _).2.2] at h
  refine foldl_inv_mem (fun s => ∀ x ∈ s.all_trades, trailingInert x) _
    (minuteCandlesInRange ctx m cand.time) (fundingStep ctx cand.time st) hall ?_ tr h
  intro a _ b hb
  exact minuteTick_inert ctx b a hb

/-- Counter equality is preserved by the whole trading pass. -/
theorem runPass_counters_eq (ctx : RunCtx) (pp : List Pivot) (m : Nat)
    (pcs : List Candle) (st : SimState) (h : st.confirmed_signals = st.executed_trades) :
    (runPass ctx pp m pcs st).confirmed_signals = (runPass ctx pp m pcs st).executed_trades := by
  unfold runPass
  refine foldl_inv_mem (fun s => s.confirmed_signals = s.executed_trades) _ pcs st h ?_
  intro a _ b hb
  exact processPrimaryCandle_counters_eq ctx pp m b a hb

/-- The trailing state of every ledger entry stays inert through the whole
trading pass. -/
theorem runPass_inert (ctx : RunCtx) (pp : List Pivot) (m : Nat) (pcs : List Candle)
    (st : SimState) (hall : ∀ tr ∈ st.all_trades, trailingInert tr) :
    ∀ tr ∈ (runPass ctx pp m pcs st).all_trades, trailingInert tr := by
  unfold runPass
  refine foldl_inv_mem (fun s => ∀ x ∈ s.all_trades, trailingInert x) _ pcs st hall ?_
  intro a _ b hb
  exact processPrimaryCandle_inert ctx pp m b a hb

/-- The final block never touches the counters. -/
theorem finalizeOpenTrades_counters (cfg : TradeConfig) (pcs : List Candle) (st : SimState) :
    (finalizeOpenTrades cfg pcs st).confirmed_signals = st.confirmed_signals ∧
    (finalizeOpenTrades cfg pcs st).executed_trades = st.executed_trades := by
  unfold finalizeOpenTrades
  split_ifs
  · exact ⟨rfl, rfl⟩
  · split
    · exact ⟨rfl, rfl⟩
    · refine foldl_inv_mem
        (fun s => s.confirmed_signals = st.confirmed_signals ∧
          s.executed_trades = st.executed_trades)
        _ st.open_trades st ⟨rfl, rfl⟩ ?_
      intro j _ s hs
      exact hs

/-- The final block preserves ledger-wide trade properties that
`update_trade` preserves. -/
theorem finalizeOpenTrades_trades_pres (P : Trade → Prop) (cfg : TradeConfig)
    (pcs : List Candle) (st : SimState)
    (hP : ∀ t (c : Candle), P t → P (update_trade t c cfg).1)
    (hall : ∀ tr ∈ st.all_trades, P tr) :
    ∀ tr ∈ (finalizeOpenTrades cfg pcs st).all_trades, P tr := by
  unfold finalizeOpenTrades
  split_ifs
  · exact hall
  · split
    · exact hall
    · refine foldl_inv_mem (fun s => ∀ tr ∈ s.all_trades, P tr) _ st.open_trades st hall ?_
      intro j _ s hs
      exact set_update_pres P cfg _ s.all_trades j (fun t ht => hP t _ ht) hs

/-- The two counters of one window evaluation either both stand still or
both advance by one, the latter only under the full execution conditions. -/
theorem processOneWindow_counters (ctx : RunCtx) (tick : Candle) (win : PendingWindow)
    (st : SimState) :
    ((processOneWindow ctx tick win st).2.confirmed_signals = st.confirmed_signals ∧
      (processOneWindow ctx tick win st).2.executed_trades = st.executed_trades) ∨
    ((processOneWindow ctx tick win st).2.confirmed_signals = st.confirmed_signals + 1 ∧
      (processOneWindow ctx tick win st).2.executed_trades = st.executed_trades + 1 ∧
      ¬ window_end ctx win < tick.time ∧
      meets_execution_requirements (window_confirmations ctx tick win)
        ctx.multi_pivot_config = true ∧
      window_entry_price ctx tick win ≠ 0 ∧
      (apply_direction_filter win.primary_pivot ctx.trade_config).1 = true ∧
      st.open_trades.length < max_trades_of ctx.trade_config ∧
      (processOneWindow ctx tick win st).1 = none) := by
  unfold processOneWindow
  split_ifs with h1 h2 h3
  · exact Or.inl ⟨rfl, rfl⟩
  · exact Or.inl ⟨rfl, rfl⟩
  · unfold executeWindow
    split_ifs with h4 h5
    · exact Or.inr ⟨rfl, rfl, h1, h2, h3, h4, h5, rfl⟩
    · exact Or.inl ⟨rfl, rfl⟩
    · exact Or.inl ⟨rfl, rfl⟩
  · exact Or.inl ⟨rfl, rfl⟩

/-- A confirmed window with a resolved entry price whose trade cannot open
(direction rejected or cap reached) is still removed, with nothing else
changed. -/
theorem processOneWindow_removed_no_trade (ctx : RunCtx) (tick : Candle)
    (win : PendingWindow) (st : SimState)
    (h1 : ¬ window_end ctx win < tick.time)
    (h2 : meets_execution_requirements (window_confirmations ctx tick win)
      ctx.multi_pivot_config = true)
    (h3 : window_entry_price ctx tick win ≠ 0)
    (h4 : (apply_direction_filter win.primary_pivot ctx.trade_config).1 = false ∨
      ¬ st.open_trades.length < max_trades_of ctx.trade_config) :
    processOneWindow ctx tick win st = (none, st) := by
  unfold processOneWindow
  rw [if_neg h1, if_pos h2, if_neg h3]
  unfold executeWindow
  rcases h4 with h4 | h4
  · rw [if_neg (by rw [h4]; exact Bool.false_ne_true)]
  · by_cases h5 : (apply_direction_filter win.primary_pivot ctx.trade_config).1 = true
    · rw [if_pos h5, if_neg h4]
    · rw [if_neg h5]

/-- pv-cleanliness (no pending window and no ledger trade for a given
pivot) is preserved tick by tick. -/
theorem minuteTick_pv_clean (ctx : RunCtx) (pv : Pivot) (st : SimState) (tick : Candle)
    (hpend : ∀ w ∈ st.pending_windows, w.primary_pivot ≠ pv)
    (htr : ∀ tr ∈ st.all_trades, tr.pivot ≠ some pv) :
    (∀ w ∈ (minuteTick ctx st tick).pending_windows, w.primary_pivot ≠ pv) ∧
    (∀ tr ∈ (minuteTick ctx st tick).all_trades, tr.pivot ≠ some pv) := by
  constructor
  · intro w hw
    exact hpend w (minuteTick_pending_mem ctx st tick w hw).1
  · refine minuteTick_trades_pres (fun tr => tr.pivot ≠ some pv) ctx st tick ?_ ?_ htr
    · intro t ht
      rw [(update_trade_pres t tick ctx.trade_config).2.2.2.1]
      exact ht
    · intro w hw _ tr _ hp he
      rw [he] at hp
      exact hpend w hw (Option.some_inj.mp hp).symm

/-- A successful `digitsToNat?` on a nonempty all-digit string never ends
in a letter, so a bare digit string falls through every suffix branch. -/
theorem parse_digits_none (l : List Char) (hne : l ≠ []) (hdig : ∀ c ∈ l, c.isDigit) :
    parse_timeframe_to_minutes ⟨l⟩ = none := by
  have hlast : l.getLast? = some (l.getLast hne) := List.getLast?_eq_getLast l hne
  have hd : (l.getLast hne).isDigit := hdig _ (List.getLast_mem hne)
  have hnm : ∀ (x : Char), x.isDigit → ¬ ((x = 'm') ∨ (x = 'h') ∨ (x = 'd') ∨ (x = 'w')) := by
    intro x hx hor
    rcases hor with he | he | he | he <;> (rw [he] at hx; exact absurd hx (by decide))
  have hx := hnm _ hd
  unfold parse_timeframe_to_minutes lastChar
  show (if l.getLast? = some 'm' then _ else _) = none
  rw [hlast]
  simp only [Option.some_inj]
  split_ifs with h1 h2 h3 h4
  · exact absurd (Or.inl h1) hx
  · exact absurd (Or.inr (Or.inl h2)) hx
  · exact absurd (Or.inr (Or.inr (Or.inl h3))) hx
  · exact absurd (Or.inr (Or.inr (Or.inr h4))) hx
  · rfl

/-! The claims. -/

/-- Claim C1: the spec says the required signal for a timeframe equals the
primary pivot's signal unless the timeframe is configured `opposite`, and
in particular a long primary with a non-opposite timeframe requires a long
pivot.  The chained conditional of the source instead always requires
`"short"` whenever the primary signal is `"long"`: a long secondary pivot
is NOT matched, while a short one is — contradicting the claim and the
`opposite` flag's evident intent. -/
theorem claim_C1_long_primary_requires_short :
    target_signal_of longPivot100 c1TfConfig = "short" ∧
    c1TfConfig.opposite = false ∧
    longPivot100.signal = "long" ∧
    check_cascade_confirmation longPivot100 [("1m", [c1LongSecondary])] 0 "1m" c1Mpc = [] ∧
    (check_cascade_confirmation longPivot100 [("1m", [c1ShortSecondary])] 0 "1m" c1Mpc).map
      (fun c => c.pivot.signal) = ["short"] := by
  refine ⟨rfl, rfl, rfl, ?_, ?_⟩ <;> rfl

/-- Claim C2: the spec says every still-open trade is force-closed against
the final candle.  The final block only calls `update_trade`, which closes
a trade solely on a TP/SL trigger: a long entered at 100 (TP 110, SL 90)
with the final candle closing at 100 stays `"open"` with no exit and zero
P&L — the ledger is NOT fully closed, contradicting the block's own
`Close any remaining open trades` comment. -/
theorem claim_C2_final_block_leaves_trade_open :
    ((finalizeOpenTrades zeroCostConfig [candle100] c2State).all_trades.map Trade.status
      = ["open"]) ∧
    ((finalizeOpenTrades zeroCostConfig [candle100] c2State).all_trades.map Trade.exit_price
      = [none]) ∧
    ((finalizeOpenTrades zeroCostConfig [candle100] c2State).all_trades.map Trade.pnl
      = [0]) ∧
    (update_trade c2OpenTrade candle100 zeroCostConfig).2 = false := by
  refine ⟨?_, ?_, ?_, ?_⟩ <;>
    norm_num +decide [finalizeOpenTrades, update_trade, updateBestPrice, tradeCloseReason,
      closeTrade, closedPnl, c2State, c2OpenTrade, create_trade, zeroCostConfig, longPivot100,
      candle100]

/-- Claim C4, counterexample: the claim says a digits-only string with no
suffix parses as that number of minutes, but the effective (shadowing)
parser raises on `"5"`. -/
theorem claim_C4_counterexample_digits_only :
    parse_timeframe_to_minutes "5" = none := by decide

/-- Claim C4, amended: suffixes `m`/`h`/`d`/`w` multiply the numeric
prefix by 1, 60, 1440, 10080; a digits-only string with NO suffix fails
with an error (rather than parsing as minutes); and any string the parser
rejects makes the aggregation call fail. -/
theorem claim_C4_parse_timeframe :
    (∀ (l : List Char) (n : Nat), digitsToNat? l = some n →
      parse_timeframe_to_minutes ⟨l ++ ['m']⟩ = some (n : Int) ∧
      parse_timeframe_to_minutes ⟨l ++ ['h']⟩ = some ((n : Int) * 60) ∧
      parse_timeframe_to_minutes ⟨l ++ ['d']⟩ = some ((n : Int) * 24 * 60) ∧
      parse_timeframe_to_minutes ⟨l ++ ['w']⟩ = some ((n : Int) * 7 * 24 * 60)) ∧
    (∀ (l : List Char), l ≠ [] → (∀ c ∈ l, c.isDigit) →
      parse_timeframe_to_minutes ⟨l⟩ = none) ∧
    (∀ (cs : List Candle) (tf : String), parse_timeframe_to_minutes tf = none →
      aggregate_candles cs tf = none) := by
  refine ⟨?_, parse_digits_none, ?_⟩
  · intro l n h
    have hp := pyInt_digits l n h
    refine ⟨?_, ?_, ?_, ?_⟩
    · unfold parse_timeframe_to_minutes
      rw [lastChar_concat, dropLastStr_concat, if_pos rfl, hp]
    · unfold parse_timeframe_to_minutes
      rw [lastChar_concat, dropLastStr_concat, if_neg (by decide), if_pos rfl, hp]
      rfl
    · unfold parse_timeframe_to_minutes
      rw [lastChar_concat, dropLastStr_concat, if_neg (by decide), if_neg (by decide),
        if_pos rfl, hp]
      rfl
    · unfold parse_timeframe_to_minutes
      rw [lastChar_concat, dropLastStr_concat, if_neg (by decide), if_neg (by decide),
        if_neg (by decide), if_pos rfl, hp]
      rfl
  · intro cs tf h
    unfold aggregate_candles
    rw [h]

/-- Witness for C4: the digit string `"5"` under each suffix, bare (fails),
and the aggregation failure on an unparseable string. -/
theorem claim_C4_parse_timeframe_witness :
    parse_timeframe_to_minutes ⟨['5'] ++ ['m']⟩ = some 5 ∧
    parse_timeframe_to_minutes ⟨['5'] ++ ['h']⟩ = some 300 ∧
    parse_timeframe_to_minutes ⟨['5']⟩ = none ∧
    aggregate_candles [] "xyz" = none := by
  obtain ⟨h1, h2, _, _⟩ := claim_C4_parse_timeframe.1 ['5'] 5 (by decide)
  refine ⟨h1, by rw [h2]; rfl, ?_, ?_⟩
  · exact claim_C4_parse_timeframe.2.1 ['5'] (by decide) (by decide)
  · exact claim_C4_parse_timeframe.2.2 [] "xyz" (by decide)

/-- Claim C5: the loop-side effective window is `min(5 minutes, configured
per-primary window)` (when one is configured and nonzero; the plain
5-minute bound otherwise), the deadline is the primary pivot time plus
that window, the first base tick strictly past the deadline removes the
window from the pending set, and from the first such tick on no window and
no executed trade for that primary pivot can ever appear. -/
theorem claim_C5_window_expiry :
    (∀ (ctx : RunCtx) (m : Nat),
      lookupKey ctx.multi_pivot_config.cascadeSettings_confirmationWindow ctx.primary_tf_name
        = some m → m ≠ 0 →
      loop_effective_window_ms ctx = min (5 * 60 * 1000) (m * 60 * 1000)) ∧
    (∀ (ctx : RunCtx) (win : PendingWindow),
      window_end ctx win = win.primary_pivot.time + loop_effective_window_ms ctx) ∧
    (∀ (ctx : RunCtx) (st : SimState) (tick : Candle) (win : PendingWindow),
      window_end ctx win < tick.time → win ∉ (minuteTick ctx st tick).pending_windows) ∧
    (∀ (ctx : RunCtx) (t0 : Candle) (rest : List Candle) (st : SimState) (pv : Pivot),
      (∀ w ∈ st.pending_windows, w.primary_pivot = pv →
        ∀ t ∈ t0 :: rest, window_end ctx w < t.time) →
      (∀ tr ∈ st.all_trades, tr.pivot ≠ some pv) →
      (∀ w ∈ ((t0 :: rest).foldl (minuteTick ctx) st).pending_windows,
        w.primary_pivot ≠ pv) ∧
      (∀ tr ∈ ((t0 :: rest).foldl (minuteTick ctx) st).all_trades,
        tr.pivot ≠ some pv)) := by
  refine ⟨?_, fun _ _ => rfl, ?_, ?_⟩
  · intro ctx m hm hnz
    unfold loop_effective_window_ms
    rw [hm]
    show (if m = 0 then 5 * 60 * 1000 else min (5 * 60 * 1000) (m * 60 * 1000))
      = min (5 * 60 * 1000) (m * 60 * 1000)
    exact if_neg hnz
  · intro ctx st tick win hlt hmem
    exact absurd ((minuteTick_pending_mem ctx st tick win hmem).2)
      (Nat.not_le_of_lt hlt)
  · intro ctx t0 rest st pv hexp htr
    have hs1p : ∀ w ∈ (minuteTick ctx st t0).pending_windows, w.primary_pivot ≠ pv := by
      intro w hw he
      obtain ⟨hm, ht⟩ := minuteTick_pending_mem ctx st t0 w hw
      exact absurd ht (Nat.not_le_of_lt (hexp w hm he t0 (List.mem_cons_self t0 rest)))
    have hs1t : ∀ tr ∈ (minuteTick ctx st t0).all_trades, tr.pivot ≠ some pv := by
      refine minuteTick_trades_pres (fun tr => tr.pivot ≠ some pv) ctx st t0 ?_ ?_ htr
      · intro t ht
        rw [(update_trade_pres t t0 ctx.trade_config).2.2.2.1]
        exact ht
      · intro w hw hle tr _ hp he
        rw [he] at hp
        have hwpv := (Option.some_inj.mp hp).symm
        exact absurd hle (Nat.not_le_of_lt (hexp w hw hwpv t0 (List.mem_cons_self t0 rest)))
    have hfold := foldl_inv_mem
      (fun s => (∀ w ∈ s.pending_windows, w.primary_pivot ≠ pv) ∧
        (∀ tr ∈ s.all_trades, tr.pivot ≠ some pv))
      (minuteTick ctx) rest (minuteTick ctx st t0) ⟨hs1p, hs1t⟩
      (fun a _ b hb => minuteTick_pv_clean ctx pv b a hb.1 hb.2)
    exact ⟨hfold.1, hfold.2⟩

/-- Witness for C5: with a 3-minute configured window the deadline is
180000 ms; the tick at 200000 ms removes the pending window of
`longPivot100` and no trade for it exists afterwards. -/
theorem claim_C5_window_expiry_witness :
    loop_effective_window_ms ctx5 = min (5 * 60 * 1000) (3 * 60 * 1000) ∧
    (∀ w ∈ ([tick5].foldl (minuteTick ctx5) st5).pending_windows,
      w.primary_pivot ≠ longPivot100) ∧
    (∀ tr ∈ ([tick5].foldl (minuteTick ctx5) st5).all_trades,
      tr.pivot ≠ some longPivot100) := by
  refine ⟨claim_C5_window_expiry.1 ctx5 3 rfl (by decide), ?_⟩
  have h := claim_C5_window_expiry.2.2.2 ctx5 tick5 [] st5 longPivot100 ?_ ?_
  · exact h
  · intro w hw _ t ht
    have hw5 : w = win9 := List.mem_singleton.mp hw
    have ht5 : t = tick5 := List.mem_singleton.mp ht
    subst hw5
    subst ht5
    decide
  · intro tr h
    exact absurd h (List.not_mem_nil tr)

/-- Claim C7: a closed trade's P&L before costs is the directional price
change over entry times size and leverage (negated for a short), minus
round-trip fees `trade_size * fee * 2` (the configured fee being a
percentage); in particular size 1000, leverage 1, zero costs: a long
100 → 110 yields +100 and a short under the same prices yields −100. -/
theorem claim_C7_update_trade_pnl :
    (∀ (trade : Trade) (cand : Candle) (cfg : TradeConfig),
      cfg.simulate_slippage = false → cfg.simulate_funding = false →
      (update_trade trade cand cfg).2 = true →
      (trade.type = "long" →
        (update_trade trade cand cfg).1.pnl =
          (cand.close - trade.entry_price) / trade.entry_price * trade.trade_size * trade.leverage
            - trade.trade_size * (cfg.total_maker_fee / 100) * 2) ∧
      (trade.type = "short" →
        (update_trade trade cand cfg).1.pnl =
          -((cand.close - trade.entry_price) / trade.entry_price * trade.trade_size
              * trade.leverage)
            - trade.trade_size * (cfg.total_maker_fee / 100) * 2)) ∧
    (update_trade (create_trade "long" longPivot100 1000 0 "1m" zeroCostConfig)
      candle110 zeroCostConfig).1.pnl = 100 ∧
    (update_trade (create_trade "short" longPivot100 1000 0 "1m" zeroCostConfig)
      candle110 zeroCostConfig).1.pnl = -100 := by
  refine ⟨fun trade cand cfg hs hf h => ?_, ?_, ?_⟩
  · have hp := (update_trade_closed trade cand cfg h).1
    rw [hp]
    unfold closedPnl
    simp only [hs, hf, if_false, Bool.false_eq_true]
    constructor
    · intro hl
      rw [if_pos hl]
    · intro hsh
      have hne : ¬ (trade.type = "long") := by rw [hsh]; decide
      rw [if_neg hne]
      ring
  · norm_num +decide [update_trade, updateBestPrice, tradeCloseReason, closeTrade, closedPnl,
      create_trade, zeroCostConfig, longPivot100, candle110]
  · norm_num +decide [update_trade, updateBestPrice, tradeCloseReason, closeTrade, closedPnl,
      create_trade, zeroCostConfig, longPivot100, candle110]

/-- Witness for C7: the general formula applied to the concrete long trade
of the fixture. -/
theorem claim_C7_update_trade_pnl_witness :
    (update_trade (create_trade "long" longPivot100 1000 0 "1m" zeroCostConfig)
        candle110 zeroCostConfig).1.pnl =
      (candle110.close - (create_trade "long" longPivot100 1000 0 "1m" zeroCostConfig).entry_price)
          / (create_trade "long" longPivot100 1000 0 "1m" zeroCostConfig).entry_price
          * (create_trade "long" longPivot100 1000 0 "1m" zeroCostConfig).trade_size
          * (create_trade "long" longPivot100 1000 0 "1m" zeroCostConfig).leverage
        - (create_trade "long" longPivot100 1000 0 "1m" zeroCostConfig).trade_size
          * (zeroCostConfig.total_maker_fee / 100) * 2 := by
  refine (claim_C7_update_trade_pnl.1 (create_trade "long" longPivot100 1000 0 "1m" zeroCostConfig)
    candle110 zeroCostConfig rfl rfl ?_).1 rfl
  norm_num +decide [update_trade, updateBestPrice, tradeCloseReason,
    create_trade, zeroCostConfig, longPivot100, candle110]

/-- Claim C9: the two run counters only ever move together, and only when
a confirmed window has a nonzero resolved entry price, passes the
direction filter and fits under the concurrency cap; a confirmed window
whose trade cannot open is still removed with neither counter moving; so
over any run the counters stay equal and the execution rate is 100%
whenever it is defined. -/
theorem claim_C9_confirmed_equals_executed :
    (∀ (ctx : RunCtx) (tick : Candle) (win : PendingWindow) (st : SimState),
      ((processOneWindow ctx tick win st).2.confirmed_signals = st.confirmed_signals ∧
        (processOneWindow ctx tick win st).2.executed_trades = st.executed_trades) ∨
      ((processOneWindow ctx tick win st).2.confirmed_signals = st.confirmed_signals + 1 ∧
        (processOneWindow ctx tick win st).2.executed_trades = st.executed_trades + 1 ∧
        ¬ window_end ctx win < tick.time ∧
        meets_execution_requirements (window_confirmations ctx tick win)
          ctx.multi_pivot_config = true ∧
        window_entry_price ctx tick win ≠ 0 ∧
        (apply_direction_filter win.primary_pivot ctx.trade_config).1 = true ∧
        st.open_trades.length < max_trades_of ctx.trade_config ∧
        (processOneWindow ctx tick win st).1 = none)) ∧
    (∀ (ctx : RunCtx) (tick : Candle) (win : PendingWindow) (st : SimState),
      ¬ window_end ctx win < tick.time →
      meets_execution_requirements (window_confirmations ctx tick win)
        ctx.multi_pivot_config = true →
      window_entry_price ctx tick win ≠ 0 →
      ((apply_direction_filter win.primary_pivot ctx.trade_config).1 = false ∨
        ¬ st.open_trades.length < max_trades_of ctx.trade_config) →
      processOneWindow ctx tick win st = (none, st)) ∧
    (∀ (ctx : RunCtx) (pp : List Pivot) (m : Nat) (pcs : List Candle) (st : SimState),
      st.confirmed_signals = st.executed_trades →
      (finalizeOpenTrades ctx.trade_config pcs (runPass ctx pp m pcs st)).confirmed_signals
        = (finalizeOpenTrades ctx.trade_config pcs (runPass ctx pp m pcs st)).executed_trades ∧
      ((finalizeOpenTrades ctx.trade_config pcs (runPass ctx pp m pcs st)).confirmed_signals
          ≠ 0 →
        ((finalizeOpenTrades ctx.trade_config pcs
            (runPass ctx pp m pcs st)).executed_trades : ℚ)
          / ((finalizeOpenTrades ctx.trade_config pcs
            (runPass ctx pp m pcs st)).confirmed_signals : ℚ) * 100 = 100)) := by
  refine ⟨processOneWindow_counters, processOneWindow_removed_no_trade, ?_⟩
  intro ctx pp m pcs st h
  have h1 := (finalizeOpenTrades_counters ctx.trade_config pcs (runPass ctx pp m pcs st)).1
  have h2 := (finalizeOpenTrades_counters ctx.trade_config pcs (runPass ctx pp m pcs st)).2
  have h3 := runPass_counters_eq ctx pp m pcs st h
  have heq : (finalizeOpenTrades ctx.trade_config pcs
      (runPass ctx pp m pcs st)).confirmed_signals
      = (finalizeOpenTrades ctx.trade_config pcs (runPass ctx pp m pcs st)).executed_trades := by
    rw [h1, h2, h3]
  refine ⟨heq, fun hne => ?_⟩
  rw [← heq]
  rw [div_self (by exact_mod_cast hne), one_mul]

/-- Witness for C9: a confirmed window (short `"1m"` pivot present, one
confirmation required, nonzero entry price) whose long signal the
`"sell"`-only direction policy rejects is removed without opening a trade,
and counters stay equal over a run. -/
theorem claim_C9_confirmed_equals_executed_witness :
    processOneWindow ctx9 tick9 win9 st9 = (none, st9) ∧
    (finalizeOpenTrades ctx9.trade_config [] (runPass ctx9 [] 1 [] st9)).confirmed_signals
      = (finalizeOpenTrades ctx9.trade_config [] (runPass ctx9 [] 1 [] st9)).executed_trades := by
  constructor
  · refine claim_C9_confirmed_equals_executed.2.1 ctx9 tick9 win9 st9 (by decide) (by decide)
      ?_ (Or.inl (by decide))
    show window_entry_price ctx9 tick9 win9 ≠ 0
    norm_num +decide [window_entry_price, window_actual_entry_time, window_confirmations,
      check_cascade_confirmation, cascade_effective_window_ms, confirmation_for,
      target_signal_of, lookupKey, natDist, resolve_entry_price, last_confirmation_time,
      ctx9, c1TfConfig, c1ShortSecondary, longPivot100, win9, tick9]
  · exact (claim_C9_confirmed_equals_executed.2.2 ctx9 [] 1 [] st9 rfl).1

/-- Claim C10: trades are created with both trailing levels inactive and
unset, no operation ever changes the trailing fields or the TP/SL levels,
the exit decision compares the tick close only against the trade's TP/SL
prices, and over any whole run every ledger trade keeps its trailing state
inert. -/
theorem claim_C10_trailing_inert :
    (∀ (ty : String) (pv : Pivot) (size : ℚ) (et : Nat) (tf : String) (cfg : TradeConfig),
      trailingInert (create_trade ty pv size et tf cfg)) ∧
    (∀ (t : Trade) (c : Candle) (cfg : TradeConfig),
      (update_trade t c cfg).1.trailing_take_profit_active = t.trailing_take_profit_active ∧
      (update_trade t c cfg).1.trailing_take_profit_price = t.trailing_take_profit_price ∧
      (update_trade t c cfg).1.trailing_stop_loss_active = t.trailing_stop_loss_active ∧
      (update_trade t c cfg).1.trailing_stop_loss_price = t.trailing_stop_loss_price ∧
      (update_trade t c cfg).1.take_profit_price = t.take_profit_price ∧
      (update_trade t c cfg).1.stop_loss_price = t.stop_loss_price) ∧
    (∀ (t : Trade) (c : Candle) (cfg : TradeConfig),
      ((update_trade t c cfg).2 = true ↔
        (if t.type = "long" then c.close ≥ t.take_profit_price ∨ c.close ≤ t.stop_loss_price
         else c.close ≤ t.take_profit_price ∨ c.close ≥ t.stop_loss_price))) ∧
    (∀ (ctx : RunCtx) (pp : List Pivot) (m : Nat) (pcs : List Candle) (st : SimState),
      (∀ tr ∈ st.all_trades, trailingInert tr) →
      ∀ tr ∈ (finalizeOpenTrades ctx.trade_config pcs (runPass ctx pp m pcs st)).all_trades,
        trailingInert tr) := by
  refine ⟨fun _ _ _ _ _ _ => ⟨rfl, rfl, rfl, rfl⟩, ?_, update_trade_snd_iff, ?_⟩
  · intro t c cfg
    have hp := update_trade_pres t c cfg
    exact ⟨hp.2.2.2.2.1, hp.2.2.2.2.2.1, hp.2.2.2.2.2.2.1, hp.2.2.2.2.2.2.2, hp.2.1, hp.2.2.1⟩
  · intro ctx pp m pcs st hall
    exact finalizeOpenTrades_trades_pres trailingInert ctx.trade_config pcs _
      (fun t c ht => update_trade_inert t c ctx.trade_config ht)
      (runPass_inert ctx pp m pcs st hall)

/-- Witness for C10: a run over one primary candle starting from a ledger
holding one (inert) open trade ends with every ledger trade inert. -/
theorem claim_C10_trailing_inert_witness :
    ∀ tr ∈ (finalizeOpenTrades ctx9.trade_config [candle100]
      (runPass ctx9 [] 1 [candle100] c2State)).all_trades, trailingInert tr := by
  refine claim_C10_trailing_inert.2.2.2 ctx9 [] 1 [candle100] c2State ?_
  intro tr h
  have he : tr = c2OpenTrade := List.mem_singleton.mp h
  subst he
  exact ⟨rfl, rfl, rfl, rfl⟩

theorem pivotFlags_L0 (config : PivotConfig) (candles : List Candle) (index : Nat)
    (h0 : config.pivotLookback = 0) :
    pivotFlags config candles index =
      (if modeHigh config.pivot_detection_mode (candles.getD index default) >
            modeHigh config.pivot_detection_mode (candles.getD (index - 1) default)
          ∧ modeLow config.pivot_detection_mode (candles.getD index default) <
            modeLow config.pivot_detection_mode (candles.getD (index - 1) default) then
        (if |modeHigh config.pivot_detection_mode (candles.getD index default) -
              modeHigh config.pivot_detection_mode (candles.getD (index - 1) default)| ≥
            |modeLow config.pivot_detection_mode (candles.getD (index - 1) default) -
              modeLow config.pivot_detection_mode (candles.getD index default)| then
          (true, false)
        else (false, true))
      else
        (decide (modeHigh config.pivot_detection_mode (candles.getD index default) >
          modeHigh config.pivot_detection_mode (candles.getD (index - 1) default)),
         decide (modeLow config.pivot_detection_mode (candles.getD index default) <
          modeLow config.pivot_detection_mode (candles.getD (index - 1) default)))) := by
  unfold pivotFlags
  rw [if_pos h0]
  split_ifs <;> simp_all

theorem detect_pivot_guards (candles : List Candle) (index : Nat) (config : PivotConfig)
    (h0 : config.pivotLookback = 0) (hsw : config.minSwingPct = 0)
    (hi : 1 ≤ index) (hlen : index < candles.length) :
    detect_pivot candles index config =
      (if ¬ (pivotFlags config candles index).1 ∧ ¬ (pivotFlags config candles index).2 then
        none
      else
        some { type := pivotTypeOf config candles index
               price := pivotPriceOf config candles index
               time := (candles.getD index default).time
               index := index
               signal := if pivotTypeOf config candles index = "high" then "short" else "long"
               swing_pct := maxSwingPctOf config candles index }) := by
  unfold detect_pivot
  rw [if_neg (by omega : ¬ (config.pivotLookback = 0 ∧ index = 0))]
  rw [if_neg (by omega : ¬ (index < config.pivotLookback ∨ candles.length ≤ index))]
  split_ifs <;> first | rfl | simp_all

/-- Claim C8: at lookback 0 (with no minimum-swing threshold configured),
`detect_pivot` returns `None` at index 0; at any later in-range index a
comparable value strictly above the previous candle's yields a high pivot
and strictly below a low pivot; when both directions qualify the larger
absolute excursion from the previous candle wins, with `"high"` chosen on
exact ties; and when neither qualifies there is no pivot. -/
theorem claim_C8_detect_pivot_lookback0 :
    (∀ (candles : List Candle) (config : PivotConfig), config.pivotLookback = 0 →
      detect_pivot candles 0 config = none) ∧
    (∀ (candles : List Candle) (index : Nat) (config : PivotConfig),
      config.pivotLookback = 0 → config.minSwingPct = 0 →
      1 ≤ index → index < candles.length →
      ((modeHigh config.pivot_detection_mode (candles.getD (index - 1) default) <
          modeHigh config.pivot_detection_mode (candles.getD index default) →
        ¬ modeLow config.pivot_detection_mode (candles.getD index default) <
          modeLow config.pivot_detection_mode (candles.getD (index - 1) default) →
        ∃ p, detect_pivot candles index config = some p ∧ p.type = "high" ∧
          p.signal = "short" ∧
          p.price = modeHigh config.pivot_detection_mode (candles.getD index default)) ∧
      (modeLow config.pivot_detection_mode (candles.getD index default) <
          modeLow config.pivot_detection_mode (candles.getD (index - 1) default) →
        ¬ modeHigh config.pivot_detection_mode (candles.getD (index - 1) default) <
          modeHigh config.pivot_detection_mode (candles.getD index default) →
        ∃ p, detect_pivot candles index config = some p ∧ p.type = "low" ∧
          p.signal = "long" ∧
          p.price = modeLow config.pivot_detection_mode (candles.getD index default)) ∧
      (modeHigh config.pivot_detection_mode (candles.getD (index - 1) default) <
          modeHigh config.pivot_detection_mode (candles.getD index default) →
        modeLow config.pivot_detection_mode (candles.getD index default) <
          modeLow config.pivot_detection_mode (candles.getD (index - 1) default) →
        |modeHigh config.pivot_detection_mode (candles.getD index default) -
            modeHigh config.pivot_detection_mode (candles.getD (index - 1) default)| ≥
          |modeLow config.pivot_detection_mode (candles.getD (index - 1) default) -
            modeLow config.pivot_detection_mode (candles.getD index default)| →
        ∃ p, detect_pivot candles index config = some p ∧ p.type = "high") ∧
      (modeHigh config.pivot_detection_mode (candles.getD (index - 1) default) <
          modeHigh config.pivot_detection_mode (candles.getD index default) →
        modeLow config.pivot_detection_mode (candles.getD index default) <
          modeLow config.pivot_detection_mode (candles.getD (index - 1) default) →
        |modeHigh config.pivot_detection_mode (candles.getD index default) -
            modeHigh config.pivot_detection_mode (candles.getD (index - 1) default)| <
          |modeLow config.pivot_detection_mode (candles.getD (index - 1) default) -
            modeLow config.pivot_detection_mode (candles.getD index default)| →
        ∃ p, detect_pivot candles index config = some p ∧ p.type = "low") ∧
      (¬ modeHigh config.pivot_detection_mode (candles.getD (index - 1) default) <
          modeHigh config.pivot_detection_mode (candles.getD index default) →
        ¬ modeLow config.pivot_detection_mode (candles.getD index default) <
          modeLow config.pivot_detection_mode (candles.getD (index - 1) default) →
        detect_pivot candles index config = none))) := by
  constructor
  · intro candles config h0
    unfold detect_pivot
    rw [if_pos ⟨h0, rfl⟩]
  · intro candles index config h0 hsw hi hlen
    have hg := detect_pivot_guards candles index config h0 hsw hi hlen
    have hf := pivotFlags_L0 config candles index h0
    refine ⟨?_, ?_, ?_, ?_, ?_⟩
    · intro hh hnl
      have hfl : pivotFlags config candles index = (true, false) := by
        rw [hf, if_neg (fun hand => hnl hand.2)]
        rw [decide_eq_true hh, decide_eq_false hnl]
      have htype : pivotTypeOf config candles index = "high" := by
        unfold pivotTypeOf
        rw [hfl]
        rfl
      have hprice : pivotPriceOf config candles index
          = modeHigh config.pivot_detection_mode (candles.getD index default) := by
        unfold pivotPriceOf
        rw [hfl]
        rfl
      rw [hg, if_neg (by rw [hfl]; simp)]
      exact ⟨_, rfl, htype, by rw [htype]; rfl, hprice⟩
    · intro hl hnh
      have hfl : pivotFlags config candles index = (false, true) := by
        rw [hf, if_neg (fun hand => hnh hand.1)]
        rw [decide_eq_true hl, decide_eq_false hnh]
      have htype : pivotTypeOf config candles index = "low" := by
        unfold pivotTypeOf
        rw [hfl]
        rfl
      have hprice : pivotPriceOf config candles index
          = modeLow config.pivot_detection_mode (candles.getD index default) := by
        unfold pivotPriceOf
        rw [hfl]
        rfl
      rw [hg, if_neg (by rw [hfl]; simp)]
      exact ⟨_, rfl, htype, by rw [htype]; rfl, hprice⟩
    · intro hh hl hex
      have hfl : pivotFlags config candles index = (true, false) := by
        rw [hf, if_pos ⟨hh, hl⟩, if_pos hex]
      have htype : pivotTypeOf config candles index = "high" := by
        unfold pivotTypeOf
        rw [hfl]
        rfl
      rw [hg, if_neg (by rw [hfl]; simp)]
      exact ⟨_, rfl, htype⟩
    · intro hh hl hex
      have hfl : pivotFlags config candles index = (false, true) := by
        rw [hf, if_pos ⟨hh, hl⟩, if_neg (not_le.mpr hex)]
      have htype : pivotTypeOf config candles index = "low" := by
        unfold pivotTypeOf
        rw [hfl]
        rfl
      rw [hg, if_neg (by rw [hfl]; simp)]
      exact ⟨_, rfl, htype⟩
    · intro hnh hnl
      have hfl : pivotFlags config candles index = (false, false) := by
        rw [hf, if_neg (fun hand => hnh hand.1)]
        rw [decide_eq_false hnh, decide_eq_false hnl]
      rw [hg, if_pos (by rw [hfl]; simp)]

/-- Witness for C8: the engulfing fixture candle is classified as a low
pivot because its down-excursion dominates. -/
theorem claim_C8_detect_pivot_lookback0_witness :
    ∃ p, detect_pivot c8Candles 1 c8Config = some p ∧ p.type = "low" := by
  have h := claim_C8_detect_pivot_lookback0.2 c8Candles 1 c8Config rfl rfl
    (by decide) (by decide)
  exact h.2.2.2.1
    (by norm_num +decide [modeHigh, modeLow, c8Candles, c8Config])
    (by norm_num +decide [modeHigh, modeLow, c8Candles, c8Config])
    (by norm_num +decide [modeHigh, modeLow, c8Candles, c8Config])

/-! Lemmas about the candle-aggregation pipeline (claims C3 and C6): the
insertion sorts, bucket keys, bucket contents and the merged fields. -/

theorem mem_insertByTime (c x : Candle) : ∀ (l : List Candle),
    (x ∈ insertByTime c l ↔ x = c ∨ x ∈ l)
  | [] => by simp [insertByTime]
  | b :: rest => by
    unfold insertByTime
    split_ifs
    · simp
    · rw [List.mem_cons, mem_insertByTime c x rest, List.mem_cons]
      tauto

theorem perm_insertByTime (c : Candle) : ∀ (l : List Candle),
    List.Perm (insertByTime c l) (c :: l)
  | [] => by simp [insertByTime]
  | b :: rest => by
    unfold insertByTime
    split_ifs
    · exact List.Perm.refl _
    · exact ((perm_insertByTime c rest).cons b).trans (List.Perm.swap c b rest)

theorem perm_sortByTime : ∀ (l : List Candle), List.Perm (sortByTime l) l
  | [] => List.Perm.refl _
  | c :: rest =>
    (perm_insertByTime c (sortByTime rest)).trans ((perm_sortByTime rest).cons c)

theorem mem_sortByTime (x : Candle) (l : List Candle) : x ∈ sortByTime l ↔ x ∈ l :=
  (perm_sortByTime l).mem_iff

theorem pairwise_insertByTime (c : Candle) : ∀ (l : List Candle),
    l.Pairwise (fun a b => a.time ≤ b.time) →
    (insertByTime c l).Pairwise (fun a b => a.time ≤ b.time)
  | [], _ => by simp [insertByTime]
  | b :: rest, hp => by
    unfold insertByTime
    rcases List.pairwise_cons.mp hp with ⟨hb, hrest⟩
    split_ifs with hc
    · refine List.pairwise_cons.mpr ⟨?_, hp⟩
      intro y hy
      rcases List.mem_cons.mp hy with rfl | hy2
      · exact hc
      · exact le_trans hc (hb y hy2)
    · refine List.pairwise_cons.mpr ⟨?_, pairwise_insertByTime c rest hrest⟩
      intro y hy
      rcases (mem_insertByTime c y rest).mp hy with rfl | hy2
      · exact le_of_not_le hc
      · exact hb y hy2

theorem pairwise_sortByTime : ∀ (l : List Candle),
    (sortByTime l).Pairwise (fun a b => a.time ≤ b.time)
  | [] => List.Pairwise.nil
  | c :: rest => pairwise_insertByTime c (sortByTime rest) (pairwise_sortByTime rest)

theorem insertByTime_of_le (c : Candle) : ∀ (l : List Candle),
    (∀ b ∈ l, c.time ≤ b.time) → insertByTime c l = c :: l
  | [], _ => rfl
  | b :: rest, h => by
    unfold insertByTime
    rw [if_pos (h b (List.mem_cons_self b rest))]

theorem sortByTime_eq_self : ∀ (l : List Candle),
    l.Pairwise (fun a b => a.time ≤ b.time) → sortByTime l = l
  | [], _ => rfl
  | c :: rest, hp => by
    rcases List.pairwise_cons.mp hp with ⟨hc, hrest⟩
    show insertByTime c (sortByTime rest) = c :: rest
    rw [sortByTime_eq_self rest hrest]
    exact insertByTime_of_le c rest hc

theorem mem_insertNat (n x : Nat) : ∀ (l : List Nat),
    (x ∈ insertNat n l ↔ x = n ∨ x ∈ l)
  | [] => by simp [insertNat]
  | b :: rest => by
    unfold insertNat
    split_ifs
    · simp
    · rw [List.mem_cons, mem_insertNat n x rest, List.mem_cons]
      tauto

theorem perm_insertNat (n : Nat) : ∀ (l : List Nat),
    List.Perm (insertNat n l) (n :: l)
  | [] => by simp [insertNat]
  | b :: rest => by
    unfold insertNat
    split_ifs
    · exact List.Perm.refl _
    · exact ((perm_insertNat n rest).cons b).trans (List.Perm.swap n b rest)

theorem perm_sortNat : ∀ (l : List Nat), List.Perm (sortNat l) l
  | [] => List.Perm.refl _
  | n :: rest =>
    (perm_insertNat n (sortNat rest)).trans ((perm_sortNat rest).cons n)

theorem mem_sortNat (x : Nat) (l : List Nat) : x ∈ sortNat l ↔ x ∈ l :=
  (perm_sortNat l).mem_iff

theorem pairwise_insertNat (n : Nat) : ∀ (l : List Nat),
    l.Pairwise (· ≤ ·) → (insertNat n l).Pairwise (· ≤ ·)
  | [], _ => by simp [insertNat]
  | b :: rest, hp => by
    unfold insertNat
    rcases List.pairwise_cons.mp hp with ⟨hb, hrest⟩
    split_ifs with hc
    · refine List.pairwise_cons.mpr ⟨?_, hp⟩
      intro y hy
      rcases List.mem_cons.mp hy with rfl | hy2
      · exact hc
      · exact le_trans hc (hb y hy2)
    · refine List.pairwise_cons.mpr ⟨?_, pairwise_insertNat n rest hrest⟩
      intro y hy
      rcases (mem_insertNat n y rest).mp hy with rfl | hy2
      · exact le_of_not_le hc
      · exact hb y hy2

theorem pairwise_sortNat : ∀ (l : List Nat), (sortNat l).Pairwise (· ≤ ·)
  | [] => List.Pairwise.nil
  | n :: rest => pairwise_insertNat n (sortNat rest) (pairwise_sortNat rest)

theorem nodup_sortNat (l : List Nat) (h : l.Nodup) : (sortNat l).Nodup :=
  (perm_sortNat l).nodup_iff.mpr h

/-- The distinct bucket keys, ascending strictly. -/
theorem aggKeys_mem (cs : List Candle) (i k : Nat) :
    k ∈ aggKeys cs i ↔ ∃ c ∈ cs, windowStart i c.time = k := by
  unfold aggKeys
  rw [mem_sortNat, List.mem_dedup, List.mem_map]

theorem aggKeys_pairwise_lt (cs : List Candle) (i : Nat) :
    (aggKeys cs i).Pairwise (· < ·) := by
  have hle := pairwise_sortNat ((cs.map (fun c => windowStart i c.time)).dedup)
  have hnd : (aggKeys cs i).Nodup :=
    nodup_sortNat _ (List.nodup_dedup _)
  exact (hle.and hnd).imp (fun h => lt_of_le_of_ne h.1 h.2)

theorem maxHigh_bound : ∀ (l : List Candle), ∀ x ∈ l, x.high ≤ maxHigh l
  | [c], x, hx => by
    rcases List.mem_singleton.mp hx with rfl
    exact le_refl _
  | c :: c2 :: rest, x, hx => by
    rcases List.mem_cons.mp hx with rfl | hx2
    · exact le_max_left _ _
    · exact le_trans (maxHigh_bound (c2 :: rest) x hx2) (le_max_right _ _)

theorem maxHigh_mem : ∀ (l : List Candle), l ≠ [] → ∃ x ∈ l, maxHigh l = x.high
  | [c], _ => ⟨c, List.mem_singleton_self c, rfl⟩
  | c :: c2 :: rest, _ => by
    obtain ⟨x, hx, he⟩ := maxHigh_mem (c2 :: rest) (by simp)
    by_cases hc : c.high ≤ maxHigh (c2 :: rest)
    · refine ⟨x, List.mem_cons_of_mem c hx, ?_⟩
      show max c.high (maxHigh (c2 :: rest)) = x.high
      rw [max_eq_right hc, he]
    · refine ⟨c, List.mem_cons_self c _, ?_⟩
      show max c.high (maxHigh (c2 :: rest)) = c.high
      rw [max_eq_left (le_of_not_le hc)]

theorem minLow_bound : ∀ (l : List Candle), ∀ x ∈ l, minLow l ≤ x.low
  | [c], x, hx => by
    rcases List.mem_singleton.mp hx with rfl
    exact le_refl _
  | c :: c2 :: rest, x, hx => by
    rcases List.mem_cons.mp hx with rfl | hx2
    · exact min_le_left _ _
    · exact le_trans (min_le_right _ _) (minLow_bound (c2 :: rest) x hx2)

theorem minLow_mem : ∀ (l : List Candle), l ≠ [] → ∃ x ∈ l, minLow l = x.low
  | [c], _ => ⟨c, List.mem_singleton_self c, rfl⟩
  | c :: c2 :: rest, _ => by
    obtain ⟨x, hx, he⟩ := minLow_mem (c2 :: rest) (by simp)
    by_cases hc : minLow (c2 :: rest) ≤ c.low
    · refine ⟨x, List.mem_cons_of_mem c hx, ?_⟩
      show min c.low (minLow (c2 :: rest)) = x.low
      rw [min_eq_right hc, he]
    · refine ⟨c, List.mem_cons_self c _, ?_⟩
      show min c.low (minLow (c2 :: rest)) = c.low
      rw [min_eq_left (le_of_not_le hc)]

theorem sumVolume_eq : ∀ (l : List Candle), sumVolume l = (l.map Candle.volume).sum
  | [] => rfl
  | c :: rest => by
    show c.volume + sumVolume rest = _
    rw [sumVolume_eq rest, List.map_cons, List.sum_cons]

theorem sumVolume_sortByTime (l : List Candle) :
    sumVolume (sortByTime l) = (l.map Candle.volume).sum := by
  rw [sumVolume_eq]
  exact ((perm_sortByTime l).map Candle.volume).sum_eq

/-- The head of the time-sorted list is a time-minimal member. -/
theorem sortByTime_head_min (l : List Candle) (hne : l ≠ []) :
    (sortByTime l).headD default ∈ l ∧
    ∀ x ∈ l, ((sortByTime l).headD default).time ≤ x.time := by
  have hsne : sortByTime l ≠ [] := by
    intro h
    have hp := perm_sortByTime l
    rw [h] at hp
    exact hne hp.symm.eq_nil
  rcases hs : sortByTime l with _ | ⟨h0, t0⟩
  · exact absurd hs hsne
  · have hp := pairwise_sortByTime l
    rw [hs] at hp
    rcases List.pairwise_cons.mp hp with ⟨hb, _⟩
    constructor
    · exact (mem_sortByTime h0 l).mp (by rw [hs]; exact List.mem_cons_self _ _)
    · intro x hx
      have hxs : x ∈ h0 :: t0 := by rw [← hs]; exact (mem_sortByTime x l).mpr hx
      rcases List.mem_cons.mp hxs with rfl | hx2
      · exact le_refl _
      · exact hb x hx2

/-- In a time-sorted list every member's time is at most the last's. -/
theorem pairwise_le_getLast : ∀ (m : List Candle) (hm : m ≠ []),
    m.Pairwise (fun a b => a.time ≤ b.time) → ∀ x ∈ m, x.time ≤ (m.getLast hm).time
  | [a], _, _, x, hx => by
    rcases List.mem_singleton.mp hx with rfl
    exact le_refl _
  | a :: b :: t, _, hp, x, hx => by
    rcases List.pairwise_cons.mp hp with ⟨ha, hrest⟩
    rw [List.getLast_cons (l := b :: t) (by simp)]
    rcases List.mem_cons.mp hx with rfl | hx2
    · exact ha _ (List.getLast_mem (by simp))
    · exact pairwise_le_getLast (b :: t) (by simp) hrest x hx2

/-- The last element of the time-sorted list is a time-maximal member. -/
theorem sortByTime_getLast_max (l : List Candle) (hne : l ≠ []) :
    (sortByTime l).getLastD default ∈ l ∧
    ∀ x ∈ l, x.time ≤ ((sortByTime l).getLastD default).time := by
  have hsne : sortByTime l ≠ [] := by
    intro h
    have hp := perm_sortByTime l
    rw [h] at hp
    exact hne hp.symm.eq_nil
  have hmem : (sortByTime l).getLastD default ∈ sortByTime l := by
    rw [List.getLastD_eq_getLast? , List.getLast?_eq_getLast _ hsne]
    exact List.getLast_mem hsne
  have hbound : ∀ x ∈ sortByTime l, x.time ≤ ((sortByTime l).getLastD default).time := by
    intro x hx
    rw [List.getLastD_eq_getLast?, List.getLast?_eq_getLast _ hsne]
    exact pairwise_le_getLast (sortByTime l) hsne (pairwise_sortByTime l) x hx
  exact ⟨(mem_sortByTime _ l).mp hmem, fun x hx => hbound x ((mem_sortByTime x l).mpr hx)⟩

/-- The bucket of a key drawn from the candles is nonempty. -/
theorem bucketOf_ne_nil (cs : List Candle) (i k : Nat) (h : k ∈ aggKeys cs i) :
    bucketOf cs i k ≠ [] := by
  obtain ⟨c, hc, hk⟩ := (aggKeys_mem cs i k).mp h
  intro hempty
  have : c ∈ bucketOf cs i k := by
    unfold bucketOf
    rw [List.mem_filter]
    exact ⟨hc, by rw [hk]; exact beq_self_eq_true k⟩
  rw [hempty] at this
  exact List.not_mem_nil c this

/-- Bucket members are exactly the candles with that window key. -/
theorem mem_bucketOf (cs : List Candle) (i k : Nat) (c : Candle) :
    c ∈ bucketOf cs i k ↔ c ∈ cs ∧ windowStart i c.time = k := by
  unfold bucketOf
  rw [List.mem_filter]
  constructor
  · rintro ⟨h1, h2⟩
    exact ⟨h1, by exact_mod_cast eq_of_beq h2⟩
  · rintro ⟨h1, h2⟩
    exact ⟨h1, by rw [h2]; exact beq_self_eq_true k⟩

/-- With the keys strictly ascending, the mapped merge list is already
time-sorted, so the final sort of the source is the identity. -/
theorem aggregate_candles_core_eq (cs : List Candle) (i : Nat) :
    aggregate_candles_core cs i =
      (aggKeys cs i).map (fun k => mergeBucket k i (bucketOf cs i k)) := by
  unfold aggregate_candles_core
  apply sortByTime_eq_self
  have hlt := aggKeys_pairwise_lt cs i
  have : ((aggKeys cs i).map (fun k => mergeBucket k i (bucketOf cs i k))).Pairwise
      (fun a b => a.time ≤ b.time) := by
    refine List.Pairwise.map _ ?_ hlt
    intro a b hab
    show a + i ≤ b + i
    exact Nat.add_le_add_right (Nat.le_of_lt hab) i
  exact this

/-- The times of the aggregated list are exactly the keys shifted by one
interval. -/
theorem aggregate_candles_core_times (cs : List Candle) (i : Nat) :
    (aggregate_candles_core cs i).map Candle.time = (aggKeys cs i).map (fun k => k + i) := by
  rw [aggregate_candles_core_eq, List.map_map]
  rfl

theorem aggregate_candles_core_pairwise (cs : List Candle) (i : Nat) :
    (aggregate_candles_core cs i).Pairwise (fun a b => a.time < b.time) := by
  rw [aggregate_candles_core_eq]
  refine List.Pairwise.map _ ?_ (aggKeys_pairwise_lt cs i)
  intro a b hab
  show a + i < b + i
  exact Nat.add_lt_add_right hab i

theorem sortByTime_ne_nil (l : List Candle) (hne : l ≠ []) : sortByTime l ≠ [] := by
  intro h
  have hp := perm_sortByTime l
  rw [h] at hp
  exact hne hp.symm.eq_nil

theorem pairwise_lt_time_inj : ∀ (l : List Candle),
    l.Pairwise (fun a b => a.time < b.time) →
    ∀ a ∈ l, ∀ b ∈ l, a.time = b.time → a = b
  | [], _, a, ha, _, _, _ => absurd ha (List.not_mem_nil a)
  | x :: rest, hp, a, ha, b, hb, he => by
    rcases List.pairwise_cons.mp hp with ⟨hx, hrest⟩
    rcases List.mem_cons.mp ha with rfl | ha2
    · rcases List.mem_cons.mp hb with rfl | hb2
      · rfl
      · exact absurd he (Nat.ne_of_lt (hx b hb2))
    · rcases List.mem_cons.mp hb with rfl | hb2
      · exact absurd he.symm (Nat.ne_of_lt (hx a ha2))
      · exact pairwise_lt_time_inj rest hrest a ha2 b hb2 he

/-- Claim C6: for every base candle list and interval, bucket membership is
exactly `floor(time / interval_ms) * interval_ms = key`; the output is sorted
strictly ascending by time; a bucket is nonempty iff it produces an output
candle at `key + interval_ms` (so empty buckets produce nothing); distinct
output candles have distinct times (one candle per bucket); and each output
candle has the open of its bucket's earliest candle, the close of the
latest, the maximal high, the minimal low, the summed volume, and timestamp
`bucket_start + interval_ms`. -/
theorem claim_C6_aggregate_buckets (cs : List Candle) (interval_ms : Nat) :
    (∀ (k : Nat) (c : Candle), c ∈ bucketOf cs interval_ms k ↔
      c ∈ cs ∧ c.time / interval_ms * interval_ms = k) ∧
    ((aggregate_candles_core cs interval_ms).Pairwise (fun a b => a.time < b.time)) ∧
    (∀ k : Nat, bucketOf cs interval_ms k ≠ [] ↔
      ∃ a ∈ aggregate_candles_core cs interval_ms, a.time = k + interval_ms) ∧
    (∀ a ∈ aggregate_candles_core cs interval_ms,
      ∀ b ∈ aggregate_candles_core cs interval_ms, a.time = b.time → a = b) ∧
    (∀ a ∈ aggregate_candles_core cs interval_ms,
      ∃ k, a.time = k + interval_ms ∧ bucketOf cs interval_ms k ≠ [] ∧
        (∃ b ∈ bucketOf cs interval_ms k,
          (∀ c ∈ bucketOf cs interval_ms k, b.time ≤ c.time) ∧ a.«open» = b.«open») ∧
        (∃ b ∈ bucketOf cs interval_ms k,
          (∀ c ∈ bucketOf cs interval_ms k, c.time ≤ b.time) ∧ a.close = b.close) ∧
        (∃ b ∈ bucketOf cs interval_ms k, a.high = b.high) ∧
        (∀ c ∈ bucketOf cs interval_ms k, c.high ≤ a.high) ∧
        (∃ b ∈ bucketOf cs interval_ms k, a.low = b.low) ∧
        (∀ c ∈ bucketOf cs interval_ms k, a.low ≤ c.low) ∧
        a.volume = ((bucketOf cs interval_ms k).map Candle.volume).sum) := by
  refine ⟨fun k c => mem_bucketOf cs interval_ms k c,
    aggregate_candles_core_pairwise cs interval_ms, ?_, ?_, ?_⟩
  · intro k
    constructor
    · intro hne
      rcases hb : bucketOf cs interval_ms k with _ | ⟨c, rest⟩
      · exact absurd hb hne
      · have hc : c ∈ bucketOf cs interval_ms k := by
          rw [hb]
          exact List.mem_cons_self c rest
        obtain ⟨hcs, hk⟩ := (mem_bucketOf cs interval_ms k c).mp hc
        have hkey : k ∈ aggKeys cs interval_ms :=
          (aggKeys_mem cs interval_ms k).mpr ⟨c, hcs, hk⟩
        refine ⟨mergeBucket k interval_ms (bucketOf cs interval_ms k), ?_, rfl⟩
        rw [aggregate_candles_core_eq]
        exact List.mem_map.mpr ⟨k, hkey, rfl⟩
    · rintro ⟨a, ha, ht⟩
      rw [aggregate_candles_core_eq] at ha
      obtain ⟨k2, hk2, rfl⟩ := List.mem_map.mp ha
      have htk : k2 + interval_ms = k + interval_ms := ht
      have : k2 = k := Nat.add_right_cancel htk
      subst this
      exact bucketOf_ne_nil cs interval_ms k2 hk2
  · intro a ha b hb he
    exact pairwise_lt_time_inj _ (aggregate_candles_core_pairwise cs interval_ms) a ha b hb he
  · intro a ha
    rw [aggregate_candles_core_eq] at ha
    obtain ⟨k, hk, rfl⟩ := List.mem_map.mp ha
    have hne := bucketOf_ne_nil cs interval_ms k hk
    have hsne := sortByTime_ne_nil _ hne
    obtain ⟨hhead_mem, hhead_min⟩ := sortByTime_head_min (bucketOf cs interval_ms k) hne
    obtain ⟨hlast_mem, hlast_max⟩ := sortByTime_getLast_max (bucketOf cs interval_ms k) hne
    obtain ⟨xh, hxh, hxh_eq⟩ := maxHigh_mem (sortByTime (bucketOf cs interval_ms k)) hsne
    obtain ⟨xl, hxl, hxl_eq⟩ := minLow_mem (sortByTime (bucketOf cs interval_ms k)) hsne
    refine ⟨k, rfl, hne, ⟨_, hhead_mem, hhead_min, rfl⟩, ⟨_, hlast_mem, hlast_max, rfl⟩,
      ⟨xh, (mem_sortByTime xh _).mp hxh, hxh_eq⟩, ?_,
      ⟨xl, (mem_sortByTime xl _).mp hxl, hxl_eq⟩, ?_, ?_⟩
    · intro c hc
      exact maxHigh_bound (sortByTime (bucketOf cs interval_ms k)) c
        ((mem_sortByTime c _).mpr hc)
    · intro c hc
      exact minLow_bound (sortByTime (bucketOf cs interval_ms k)) c
        ((mem_sortByTime c _).mpr hc)
    · exact sumVolume_sortByTime (bucketOf cs interval_ms k)

theorem insertNat_of_le (n : Nat) : ∀ (l : List Nat),
    (∀ b ∈ l, n ≤ b) → insertNat n l = n :: l
  | [], _ => rfl
  | b :: rest, h => by
    unfold insertNat
    rw [if_pos (h b (List.mem_cons_self b rest))]

theorem sortNat_eq_self : ∀ (l : List Nat), l.Pairwise (· ≤ ·) → sortNat l = l
  | [], _ => rfl
  | n :: rest, hp => by
    rcases List.pairwise_cons.mp hp with ⟨hn, hrest⟩
    show insertNat n (sortNat rest) = n :: rest
    rw [sortNat_eq_self rest hrest]
    exact insertNat_of_le n rest hn

/-- An aggregated candle's time is its own window key: it is
`key + interval` with the key a multiple of the interval. -/
theorem aggregate_candles_core_windowStart (cs : List Candle) (i : Nat) :
    ∀ c ∈ aggregate_candles_core cs i, windowStart i c.time = c.time := by
  intro c hc
  rw [aggregate_candles_core_eq] at hc
  obtain ⟨k, hk, rfl⟩ := List.mem_map.mp hc
  show windowStart i (k + i) = k + i
  obtain ⟨c0, _, rfl⟩ := (aggKeys_mem cs i k).mp hk
  unfold windowStart
  have hdvd : i ∣ c0.time / i * i + i :=
    Nat.dvd_add (Dvd.intro_left (c0.time / i) rfl) (dvd_refl i)
  rw [Nat.div_mul_cancel hdvd]

/-- Filtering a strictly-time-sorted list for one member's time gives the
singleton. -/
theorem filter_time_singleton : ∀ (l : List Candle),
    l.Pairwise (fun a b => a.time < b.time) → ∀ c ∈ l,
    l.filter (fun x => x.time == c.time) = [c]
  | [], _, c, hc => absurd hc (List.not_mem_nil c)
  | x :: rest, hp, c, hc => by
    rcases List.pairwise_cons.mp hp with ⟨hx, hrest⟩
    rcases List.mem_cons.mp hc with rfl | hc2
    · rw [List.filter_cons_of_pos (by exact beq_self_eq_true c.time)]
      have : rest.filter (fun x => x.time == c.time) = [] := by
        rw [List.filter_eq_nil_iff]
        intro b hb
        have := hx b hb
        simp only [beq_iff_eq]
        omega
      rw [this]
    · have hxc : ¬ (x.time == c.time) = true := by
        simp only [beq_iff_eq]
        have := hx c hc2
        omega
      rw [List.filter_cons, if_neg hxc]
      exact filter_time_singleton rest hrest c hc2

theorem mergeBucket_singleton (k i : Nat) (c : Candle) :
    mergeBucket k i [c] = { c with time := k + i } := by
  simp [mergeBucket, sortByTime, insertByTime, maxHigh, minLow, sumVolume]

theorem aggKeys_of_fixed (out : List Candle) (i : Nat)
    (hws : ∀ c ∈ out, windowStart i c.time = c.time)
    (hpw : out.Pairwise (fun a b => a.time < b.time)) :
    aggKeys out i = out.map Candle.time := by
  unfold aggKeys
  have h1 : out.map (fun c => windowStart i c.time) = out.map Candle.time :=
    List.map_congr_left hws
  rw [h1]
  have hlt : (out.map Candle.time).Pairwise (· < ·) := List.pairwise_map.mpr hpw
  rw [List.dedup_eq_self.mpr (hlt.imp ne_of_lt)]
  exact sortNat_eq_self _ (hlt.imp Nat.le_of_lt)

theorem bucketOf_of_fixed (out : List Candle) (i : Nat)
    (hws : ∀ c ∈ out, windowStart i c.time = c.time)
    (hpw : out.Pairwise (fun a b => a.time < b.time))
    (c : Candle) (hc : c ∈ out) :
    bucketOf out i c.time = [c] := by
  unfold bucketOf
  have : out.filter (fun x => windowStart i x.time == c.time)
      = out.filter (fun x => x.time == c.time) := by
    apply List.filter_congr
    intro x hx
    rw [hws x hx]
  rw [this]
  exact filter_time_singleton out hpw c hc

/-- Re-aggregating an aggregated series at the same interval shifts every
timestamp forward by one interval and keeps every OHLCV value. -/
theorem aggregate_candles_core_reagg (cs : List Candle) (i : Nat) :
    aggregate_candles_core (aggregate_candles_core cs i) i =
      (aggregate_candles_core cs i).map (fun c => { c with time := c.time + i }) := by
  have hws := aggregate_candles_core_windowStart cs i
  have hpw := aggregate_candles_core_pairwise cs i
  rw [aggregate_candles_core_eq (aggregate_candles_core cs i) i,
    aggKeys_of_fixed _ i hws hpw, List.map_map]
  apply List.map_congr_left
  intro c hc
  show mergeBucket c.time i (bucketOf (aggregate_candles_core cs i) i c.time) = _
  rw [bucketOf_of_fixed _ i hws hpw c hc, mergeBucket_singleton]

/-- Claim C3 counterexample: `aggregate_candles` is NOT idempotent.  A single
candle at time 60000 aggregated at "2m" gets bucket key 0 and output time
0 + 120000 = 120000; re-aggregating that output moves it to bucket key
120000 and output time 240000, so re-aggregation changes the series. -/
theorem claim_C3_counterexample :
    ((aggregate_candles [⟨60000, 1, 2, 1, 2, 3⟩] "2m").bind
        (fun o => aggregate_candles o "2m"))
      ≠ aggregate_candles [⟨60000, 1, 2, 1, 2, 3⟩] "2m" := by
  intro h
  have h1 : (((aggregate_candles [⟨60000, 1, 2, 1, 2, 3⟩] "2m").bind
      (fun o => aggregate_candles o "2m")).map (List.map Candle.time)) = some [240000] := by
    decide
  have h2 : ((aggregate_candles [⟨60000, 1, 2, 1, 2, 3⟩] "2m").map
      (List.map Candle.time)) = some [120000] := by
    decide
  rw [h, h2] at h1
  exact absurd h1 (by decide)

/-- Claim C3 (amended): re-aggregating at the same valid timeframe preserves
the candle count and every OHLCV value but shifts every timestamp forward by
exactly one interval, because output timestamps are window ENDS and the
re-aggregation buckets them by those shifted times. -/
theorem claim_C3_reaggregation_shifts (s : List Candle) (tf : String) (m : Int)
    (hp : parse_timeframe_to_minutes tf = some m) (hm : 0 < m) :
    (aggregate_candles s tf).bind (fun o => aggregate_candles o tf) =
      (aggregate_candles s tf).map
        (List.map (fun c => { c with time := c.time + m.toNat * 60 * 1000 })) := by
  have key : ∀ l, aggregate_candles l tf =
      some (aggregate_candles_core l (m.toNat * 60 * 1000)) := by
    intro l
    unfold aggregate_candles
    rw [hp]
    show (if m ≤ 0 then none
      else some (aggregate_candles_core l (m.toNat * 60 * 1000))) = _
    rw [if_neg (not_le.mpr hm)]
  rw [key s]
  show aggregate_candles (aggregate_candles_core s (m.toNat * 60 * 1000)) tf =
    some ((aggregate_candles_core s (m.toNat * 60 * 1000)).map
      (fun c => { c with time := c.time + m.toNat * 60 * 1000 }))
  rw [key]
  exact congrArg some (aggregate_candles_core_reagg s (m.toNat * 60 * 1000))

/-- Witness for the amended C3 theorem at tf = "2m". -/
theorem claim_C3_reaggregation_shifts_witness :
    parse_timeframe_to_minutes "2m" = some 2 ∧ (0:Int) < 2 ∧
    (aggregate_candles [⟨60000, 1, 2, 1, 2, 3⟩] "2m").bind
        (fun o => aggregate_candles o "2m") =
      (aggregate_candles [⟨60000, 1, 2, 1, 2, 3⟩] "2m").map
        (List.map (fun c => { c with time := c.time + (2:Int).toNat * 60 * 1000 })) :=
  ⟨by decide, by decide, claim_C3_reaggregation_shifts _ "2m" 2 (by decide) (by decide)⟩
